import Mathlib

set_option maxRecDepth 4000

/-!
Shallow embedding of the Enoki CUDA tracing JIT compiler (`src/cuda/trace.cu`)
and verification of its specification.

Modelling conventions:
* the process-wide globals `__trace`, `__active`, `__dirty` become an explicit
  `TraceState` record threaded through every operation;
* `uint32_t` reference counters are `Nat` values taken modulo `2^32` exactly
  where the C++ arithmetic can wrap;
* the device pointer of a node is modelled by a `Bool` (`data = true` models
  `data != nullptr`); `cudaMalloc`/`cudaFree` set and clear it;
* C++ `throw` and failed `assert` become `Except.error`; recursion through the
  reference-count cascade (`cuda_dec_ref_int` / `cuda_var_free`) is expressed
  with an explicit fuel parameter that is large enough for every acyclic trace
  (dependency indices of appended nodes are strictly smaller than the node);
* `std::unordered_set` / `std::unordered_map` iterate in an unspecified order;
  they are modelled as lists in insertion order, and no theorem below depends
  on the iteration order;
* the PTX text produced by `cuda_jit_assemble` outside of `cuda_render_cmd`
  (kernel header, loads, stores) has no effect on the trace state and is not
  needed by any claim, so only the state effects and the error checks of
  assembly are modelled; `cuda_jit_run` only talks to the GPU driver and has
  no effect on the trace state.
-/

/-- Reserved registers for grid-stride loop indexing
    (`#define ENOKI_CUDA_REG_RESERVED 10`). -/
def ENOKI_CUDA_REG_RESERVED : Nat := 10

/-- Modulus of the `uint32_t` reference counters. -/
def U32 : Nat := 4294967296

/-- Element type tags (`EnokiType`, declared in `common.cuh`; the constructor
    set is the one exercised by `trace.cu`). -/
inductive EnokiType where
  | Invalid
  | Int8
  | UInt8
  | Int16
  | UInt16
  | Int32
  | UInt32
  | Int64
  | UInt64
  | Pointer
  | Float16
  | Float32
  | Float64
  | Bool
deriving DecidableEq, Repr, Inhabited

/-- One trace node (struct `Variable`). Field defaults mirror the member
    initialisers of the C++ struct; `data : Bool` models `data != nullptr`. -/
structure Variable where
  type : EnokiType
  cmd : String := ""
  comment : String := ""
  size : Nat := 1
  data : Bool := false
  ref_count_ext : Nat := 0
  ref_count_int : Nat := 0
  dep : List Nat := [0, 0, 0]
  side_effect : Bool := false
  dirty : Bool := false
  free : Bool := true
  subtree_size : Nat := 0
deriving DecidableEq, Repr

instance : Inhabited Variable := ⟨{ type := EnokiType.Invalid }⟩

/-- `Variable::is_collected`. -/
def Variable.is_collected (v : Variable) : Bool :=
  v.ref_count_int == 0 && v.ref_count_ext == 0

/-- The global mutable state of the tracer: the trace `__trace`, the active
    set `__active` and the dirty queue `__dirty`. -/
structure TraceState where
  trace : List Variable := []
  active : List Nat := []
  dirtyQ : List Nat := []
deriving DecidableEq, Repr

instance : Inhabited TraceState := ⟨{}⟩

deriving instance DecidableEq for Except

/-- Read a trace slot (reads past the end, which the C++ guards with asserts,
    yield the default-constructed node). -/
def getVL (tr : List Variable) (i : Nat) : Variable := tr.getD i default

def getV (s : TraceState) (i : Nat) : Variable := getVL s.trace i

def setV (s : TraceState) (i : Nat) (v : Variable) : TraceState :=
  { s with trace := s.trace.set i v }

def modV (s : TraceState) (i : Nat) (f : Variable → Variable) : TraceState :=
  setV s i (f (getV s i))

def activeInsert (s : TraceState) (i : Nat) : TraceState :=
  if i ∈ s.active then s else { s with active := s.active ++ [i] }

def activeErase (s : TraceState) (i : Nat) : TraceState :=
  { s with active := s.active.filter (fun j => j != i) }

/-- Fuel that bounds the depth of the `cuda_dec_ref_int`/`cuda_var_free`
    cascade: on traces whose dependency indices are strictly decreasing the
    cascade alternates between the two functions while strictly decreasing the
    node index, so `2 * length + 2` levels always suffice. -/
def evalFuel (s : TraceState) : Nat := 2 * s.trace.length + 2

/-- `cuda_init`: reserved slots `0 .. ENOKI_CUDA_REG_RESERVED - 1`
    (one `Invalid`, one `UInt64`, the rest `UInt32`); the active set is
    cleared.  The dirty queue of a fresh process is empty. -/
def cuda_init : TraceState :=
  { trace := { type := EnokiType.Invalid } :: { type := EnokiType.UInt64 } ::
      List.replicate (ENOKI_CUDA_REG_RESERVED - 2) { type := EnokiType.UInt32 },
    active := [], dirtyQ := [] }

/-- `cuda_inc_ref_ext` (indices below the reserved count are silently
    ignored; the debug assert `index < tr.size()` is dropped in release
    builds, and a write past the end leaves the trace unchanged here). -/
def cuda_inc_ref_ext (s : TraceState) (index : Nat) : TraceState :=
  if index < ENOKI_CUDA_REG_RESERVED then s
  else modV s index (fun v => { v with ref_count_ext := (v.ref_count_ext + 1) % U32 })

/-- `cuda_inc_ref_int`. -/
def cuda_inc_ref_int (s : TraceState) (index : Nat) : TraceState :=
  if index < ENOKI_CUDA_REG_RESERVED then s
  else modV s index (fun v => { v with ref_count_int := (v.ref_count_int + 1) % U32 })

mutual

/-- `cuda_var_free`: decrement and zero the three dependency slots one at a
    time (the C++ reads `v.dep[i]` through a reference, so the slot is re-read
    after each cascading decrement), then release the device buffer. -/
def cuda_var_free_f : Nat → TraceState → Nat → Except String TraceState
  | 0, _, _ => Except.error "fuel exhausted (cyclic dependency chain)"
  | fuel + 1, s0, idx => do
    let s ← cuda_dec_ref_int_f fuel s0 ((getV s0 idx).dep.getD 0 0)
    let s := modV s idx (fun v => { v with dep := v.dep.set 0 0 })
    let s ← cuda_dec_ref_int_f fuel s ((getV s idx).dep.getD 1 0)
    let s := modV s idx (fun v => { v with dep := v.dep.set 1 0 })
    let s ← cuda_dec_ref_int_f fuel s ((getV s idx).dep.getD 2 0)
    let s := modV s idx (fun v => { v with dep := v.dep.set 2 0 })
    pure (modV s idx (fun v => { v with data := false }))

/-- `cuda_dec_ref_int`: no underflow check — the `uint32_t` counter wraps
    around; the node is freed when both counters reach zero. -/
def cuda_dec_ref_int_f : Nat → TraceState → Nat → Except String TraceState
  | 0, _, _ => Except.error "fuel exhausted (cyclic dependency chain)"
  | fuel + 1, s, index =>
    if index < ENOKI_CUDA_REG_RESERVED then pure s
    else if s.trace.isEmpty then Except.error "CUDA tracing JIT is uninitialized!"
    else if index < s.trace.length then
      let s := modV s index
        (fun v => { v with ref_count_int := (v.ref_count_int + U32 - 1) % U32 })
      if (getV s index).is_collected then cuda_var_free_f fuel s index else pure s
    else Except.error "assertion failed: index < tr.size()"

end

def cuda_var_free (s : TraceState) (idx : Nat) : Except String TraceState :=
  cuda_var_free_f (evalFuel s) s idx

def cuda_dec_ref_int (s : TraceState) (index : Nat) : Except String TraceState :=
  cuda_dec_ref_int_f (evalFuel s) s index

/-- `cuda_dec_ref_ext`: a decrement at an external count of zero throws;
    hitting zero evicts the node from the active set; when both counters are
    zero the node is freed. -/
def cuda_dec_ref_ext (s : TraceState) (index : Nat) : Except String TraceState :=
  if index < ENOKI_CUDA_REG_RESERVED || s.trace.isEmpty then pure s
  else if index < s.trace.length then
    if (getV s index).ref_count_ext == 0 then
      Except.error "cuda_dec_ref_ext(): Negative reference count!"
    else
      let s := modV s index (fun v => { v with ref_count_ext := v.ref_count_ext - 1 })
      let s := if (getV s index).ref_count_ext == 0 then activeErase s index else s
      if (getV s index).is_collected then cuda_var_free_f (evalFuel s) s index
      else pure s
  else Except.error "assertion failed: index < tr.size()"

/-- `cuda_var_mark_side_effect`; the assert requires
    `index > ENOKI_CUDA_REG_RESERVED && index < tr.size()`. -/
def cuda_var_mark_side_effect (s : TraceState) (index : Nat) : Except String TraceState :=
  if ENOKI_CUDA_REG_RESERVED < index && index < s.trace.length then
    pure (modV s index (fun v => { v with side_effect := true }))
  else
    Except.error "assertion failed: index > ENOKI_CUDA_REG_RESERVED && index < tr.size()"

/-- `cuda_var_mark_dirty`: set the flag and push the index onto the dirty
    queue; same assert as `cuda_var_mark_side_effect`. -/
def cuda_var_mark_dirty (s : TraceState) (index : Nat) : Except String TraceState :=
  if ENOKI_CUDA_REG_RESERVED < index && index < s.trace.length then
    pure { modV s index (fun v => { v with dirty := true }) with
           dirtyQ := s.dirtyQ ++ [index] }
  else
    Except.error "assertion failed: index > ENOKI_CUDA_REG_RESERVED && index < tr.size()"

/-- `cuda_var_register`: publish an externally allocated buffer (`dataPtr`
    models `ptr != nullptr`); no instruction, one external reference, an
    internal reference on the parent.  Not inserted into the active set. -/
def cuda_var_register (s : TraceState) (type : EnokiType) (size : Nat)
    (dataPtr : Bool) (parent : Nat) (dealloc : Bool) : Nat × TraceState :=
  let idx := s.trace.length
  let s := { s with trace := s.trace ++
      [{ type := type, cmd := "", data := dataPtr, size := size,
         free := dealloc, dep := [parent, 0, 0] }] }
  let s := cuda_inc_ref_ext s idx
  (idx, cuda_inc_ref_int s parent)

-- -----------------------------------------------------------------------
-- Type registry (`cuda_register_size/type/type_bin/name`)
-- -----------------------------------------------------------------------

def cuda_register_size : EnokiType → Nat
  | .UInt8 | .Int8 | .Bool => 1
  | .UInt16 | .Int16 => 2
  | .UInt32 | .Int32 => 4
  | .Pointer | .UInt64 | .Int64 => 8
  | .Float32 => 4
  | .Float64 => 8
  | _ => 18446744073709551615

def cuda_register_type : EnokiType → Option String
  | .UInt8 => some "u8"
  | .Int8 => some "s8"
  | .UInt16 => some "u16"
  | .Int16 => some "s16"
  | .UInt32 => some "u32"
  | .Int32 => some "s32"
  | .Pointer | .UInt64 => some "u64"
  | .Int64 => some "s64"
  | .Float16 => some "f16"
  | .Float32 => some "f32"
  | .Float64 => some "f64"
  | .Bool => some "pred"
  | _ => none

def cuda_register_type_bin : EnokiType → Option String
  | .UInt8 | .Int8 => some "b8"
  | .UInt16 | .Float16 | .Int16 => some "b16"
  | .Float32 | .UInt32 | .Int32 => some "b32"
  | .Pointer | .Float64 | .UInt64 | .Int64 => some "b64"
  | .Bool => some "pred"
  | _ => none

def cuda_register_name : EnokiType → Option String
  | .UInt8 | .Int8 => some "%b"
  | .UInt16 | .Int16 => some "%w"
  | .UInt32 | .Int32 => some "%r"
  | .Pointer | .UInt64 | .Int64 => some "%rd"
  | .Float32 => some "%f"
  | .Float64 => some "%d"
  | .Bool => some "%p"
  | _ => none

-- -----------------------------------------------------------------------
-- Scheduler (`sweep_recursive`, bucket construction in `cuda_eval`)
-- -----------------------------------------------------------------------

/-- The `prio` lambda of `sweep_recursive`: subtree size of a dependency,
    with reserved indices counting as 0. -/
def sweepPrio (tr : List Variable) (k : Nat) : Nat :=
  if k ≥ ENOKI_CUDA_REG_RESERVED then (getVL tr k).subtree_size else 0

/-- The three dependency slots of a node as a triple. -/
def depsTriple (tr : List Variable) (idx : Nat) : Nat × Nat × Nat :=
  ((getVL tr idx).dep.getD 0 0, (getVL tr idx).dep.getD 1 0,
   (getVL tr idx).dep.getD 2 0)

/-- The three compare-exchange steps of `sweep_recursive` (the C++ compares
    `prio(1) < prio(2)` but swaps `deps[0], deps[1]`, and so on); the `prio`
    lambda reads the current arrangement through a reference, so every
    comparison uses the already-swapped slots. -/
def sweepSortDeps (tr : List Variable) (d : Nat × Nat × Nat) : Nat × Nat × Nat :=
  let d := if sweepPrio tr d.2.1 < sweepPrio tr d.2.2 then (d.2.1, d.1, d.2.2) else d
  let d := if sweepPrio tr d.1 < sweepPrio tr d.2.2 then (d.2.2, d.2.1, d.1) else d
  if sweepPrio tr d.1 < sweepPrio tr d.2.1 then (d.2.1, d.1, d.2.2) else d

/-- `sweep_recursive`: post-order depth-first traversal with the dependency
    slots reordered by `sweepSortDeps` and reserved indices skipped; the
    visited set and the schedule are threaded through.  Fuel bounds the
    recursion depth (dependency indices of appended nodes are strictly below
    the node's own index, so `tr.length + 1` suffices). -/
def sweep_recursive_f : Nat → List Variable → List Nat × List Nat → Nat →
    List Nat × List Nat
  | 0, _, vs, _ => vs
  | fuel + 1, tr, (visited, sweep), idx =>
    if idx ∈ visited then (visited, sweep)
    else
      let visited := visited ++ [idx]
      let d := sweepSortDeps tr (depsTriple tr idx)
      let vs := if d.1 ≥ ENOKI_CUDA_REG_RESERVED
        then sweep_recursive_f fuel tr (visited, sweep) d.1 else (visited, sweep)
      let vs := if d.2.1 ≥ ENOKI_CUDA_REG_RESERVED
        then sweep_recursive_f fuel tr vs d.2.1 else vs
      let vs := if d.2.2 ≥ ENOKI_CUDA_REG_RESERVED
        then sweep_recursive_f fuel tr vs d.2.2 else vs
      (vs.1, vs.2 ++ [idx])

def sweepFuel (tr : List Variable) : Nat := tr.length + 1

/-- The bucket construction of `cuda_eval`: active nodes are bucketed by
    element count; each bucket shares one visited set and one schedule.
    The C++ iterates `__active` (an `unordered_set`) and the bucket map in
    unspecified order; the model iterates the active list in insertion order
    and keeps buckets in first-occurrence order. -/
def buildSweeps (s : TraceState) : List (Nat × (List Nat × List Nat)) :=
  s.active.foldl (fun buckets idx =>
    let sz := (getV s idx).size
    match buckets.find? (fun b => b.1 == sz) with
    | some b => buckets.map (fun b2 =>
        if b2.1 == sz
        then (sz, sweep_recursive_f (sweepFuel s.trace) s.trace b.2 idx)
        else b2)
    | none => buckets ++
        [(sz, sweep_recursive_f (sweepFuel s.trace) s.trace ([], []) idx)]) []

/-- The per-bucket schedules of the next `cuda_eval` on state `s`. -/
def scheduleOf (s : TraceState) : List (Nat × List Nat) :=
  (buildSweeps s).map (fun b => (b.1, b.2.2))

-- -----------------------------------------------------------------------
-- Code emission (`cuda_render_cmd`, register map of `cuda_jit_assemble`)
-- -----------------------------------------------------------------------

/-- The operand-range check of `cuda_render_cmd`, exactly as written in the
    source: `if (dep_offset < 1 && dep_offset > 4)`. -/
def renderRangeGuard (d : Nat) : Bool :=
  decide (d < 1) && decide (d > 4)

/-- `reg_map.find(k)` on the association-list model of the
    `std::unordered_map<uint32_t, uint32_t>`. -/
def regMapFind (reg_map : List (Nat × Nat)) (k : Nat) : Option Nat :=
  (reg_map.find? (fun p => p.1 == k)).map (fun p => p.2)

/-- `reg_map[k] = v` (insert-or-overwrite). -/
def regMapInsert (reg_map : List (Nat × Nat)) (k v : Nat) : List (Nat × Nat) :=
  if reg_map.any (fun p => p.1 == k)
  then reg_map.map (fun p => if p.1 == k then (k, v) else p)
  else reg_map ++ [(k, v)]

/-- Register allocation of `cuda_jit_assemble`: each scheduled node gets the
    next sequential index starting at `ENOKI_CUDA_REG_RESERVED`, and then the
    single line `reg_map[2] = 2` maps reserved index 2 to itself. -/
def buildRegMap (sweep : List Nat) : List (Nat × Nat) :=
  let m := (sweep.foldl (fun acc idx => (regMapInsert acc.1 idx acc.2, acc.2 + 1))
      (([] : List (Nat × Nat)), ENOKI_CUDA_REG_RESERVED)).1
  regMapInsert m 2 2

/-- The scan loop of `cuda_render_cmd` over the instruction template.  A `$`
    with fewer than two following characters falls into the verbatim-copy
    branch (`i + 2 >= cmd.length()`).  `dep_offset` is the `uint8_t` value
    `cmd[i+2] - '0'`.  A slot access `dep[dep_offset - 2]` outside `0..2`
    is undefined behaviour in the C++ (`std::array<uint32_t,3>` read out of
    bounds); the model makes it an explicit error so that it is
    distinguishable from the (unreachable) `out of bounds` throw. -/
def renderChars (tr : List Variable) (reg_map : List (Nat × Nat)) (index : Nat) :
    List Char → Except String String
  | [] => pure ""
  | [c] => pure (String.singleton c)
  | [c, c2] => pure (String.singleton c ++ String.singleton c2)
  | c :: ty :: dg :: rest =>
    if c != '$' then do
      let t ← renderChars tr reg_map index (ty :: dg :: rest)
      pure (String.singleton c ++ t)
    else
      let dep_offset := (dg.toNat + 256 - 48) % 256
      if ty != 't' && ty != 'b' && ty != 'r' then
        Except.error "cuda_render_cmd: invalid '$' template!"
      else if renderRangeGuard dep_offset then
        Except.error "cuda_render_cmd: out of bounds!"
      else do
        let dep ← if dep_offset == 1 then pure index
          else if 2 ≤ dep_offset && dep_offset ≤ 4 then
            pure ((getVL tr index).dep.getD (dep_offset - 2) 0)
          else Except.error "undefined behavior: dependency slot index out of range"
        if dep ≥ tr.length then Except.error "cuda_render_cmd: out of bounds!"
        else do
          let dep_type := (getVL tr dep).type
          let result ← match (if ty == 't' then cuda_register_type dep_type
              else if ty == 'b' then cuda_register_type_bin dep_type
              else cuda_register_name dep_type) with
            | some r => pure r
            | none => Except.error "CUDABackend: internal error -- unsupported type!"
          let reg ← if ty == 'r' then
              match regMapFind reg_map dep with
              | some n => pure (toString n)
              | none => Except.error "CUDABackend: internal error -- variable not found!"
            else pure ""
          let t ← renderChars tr reg_map index rest
          pure (result ++ reg ++ t)

/-- `cuda_render_cmd`: leading indentation, the expanded template, and a
    trailing `;` + newline when the template does not end in a newline. -/
def cuda_render_cmd (tr : List Variable) (reg_map : List (Nat × Nat))
    (index : Nat) : Except String String := do
  let cs := (getVL tr index).cmd.toList
  let body ← renderChars tr reg_map index cs
  pure ("    " ++ body ++ (if cs.getLastD '\n' != '\n' then ";\n" else ""))

-- -----------------------------------------------------------------------
-- Assembly and evaluation (`cuda_jit_assemble`, `cuda_eval`)
-- -----------------------------------------------------------------------

/-- State effects of one loop iteration of `cuda_jit_assemble` over the
    schedule: consistency checks, the argument-pointer table (modelled by the
    list of node indices whose pointers are pushed), the external-reference
    release of side-effect nodes, and the output-buffer allocation
    (`data := true`) for nodes that keep external references and have the
    bucket's size.  The emitted PTX text has no state effect and is elided. -/
def assembleStep (size : Nat) (reg_map : List (Nat × Nat))
    (acc : TraceState × List Nat) (index : Nat) :
    Except String (TraceState × List Nat) :=
  let s := acc.1
  let v := getV s index
  if v.is_collected || (v.cmd == "" && v.data == false) then
    Except.error "CUDABackend: found invalid/expired variable in schedule!"
  else if v.size != 1 && v.size != size then
    Except.error "CUDABackend: encountered arrays of incompatible size!"
  else if v.data then
    pure (s, acc.2 ++ [index])
  else do
    let _ ← cuda_render_cmd s.trace reg_map index
    let s ← if v.side_effect then cuda_dec_ref_ext s index else pure s
    if (getV s index).ref_count_ext == 0 then pure (s, acc.2)
    else if (getV s index).size != size then pure (s, acc.2)
    else
      let s := modV s index (fun v2 => { v2 with data := true })
      pure (s, acc.2 ++ [index])

def cuda_jit_assemble (s : TraceState) (size : Nat) (sweep : List Nat) :
    Except String (TraceState × List Nat) :=
  sweep.foldlM (assembleStep size (buildRegMap sweep)) (s, [])

/-- The edge-collapse loop at the end of `cuda_eval`: every scheduled node
    that is materialised (`data != nullptr` and non-empty template) has its
    three dependency slots internally decremented and zeroed. -/
def collapseStep (s : TraceState) (idx : Nat) : Except String TraceState :=
  let v := getV s idx
  if v.data && v.cmd != "" then do
    let s ← cuda_dec_ref_int_f (evalFuel s) s ((getV s idx).dep.getD 0 0)
    let s := modV s idx (fun v2 => { v2 with dep := v2.dep.set 0 0 })
    let s ← cuda_dec_ref_int_f (evalFuel s) s ((getV s idx).dep.getD 1 0)
    let s := modV s idx (fun v2 => { v2 with dep := v2.dep.set 1 0 })
    let s ← cuda_dec_ref_int_f (evalFuel s) s ((getV s idx).dep.getD 2 0)
    let s := modV s idx (fun v2 => { v2 with dep := v2.dep.set 2 0 })
    pure s
  else pure s

/-- The dirty-flag clearing loop of `cuda_eval`
    (`for (uint32_t idx : __dirty) tr[idx].dirty = false;`). -/
def clearFold (L : List Nat) (s : TraceState) : TraceState :=
  L.foldl (fun s2 idx => modV s2 idx (fun v => { v with dirty := false })) s

/-- One bucket of `cuda_eval`: assemble (with its state effects), launch
    (`cuda_jit_run`, no trace-state effect; the assembled source is never the
    empty string because the kernel header is emitted unconditionally, so the
    `continue` on an empty source is dead), then collapse the edges of the
    materialised scheduled nodes. -/
def evalBucket (s : TraceState) (bucket : Nat × (List Nat × List Nat)) :
    Except String TraceState := do
  let r ← cuda_jit_assemble s bucket.1 bucket.2.2
  bucket.2.2.foldlM collapseStep r.1

/-- `cuda_eval`: build the per-size buckets from the active set, clear the
    dirty flags of every queued node, clear the active set and the dirty
    queue, then process each bucket. -/
def cuda_eval (s : TraceState) : Except String TraceState := do
  let sweeps := buildSweeps s
  let s2 := { clearFold s.dirtyQ s with active := [], dirtyQ := [] }
  sweeps.foldlM evalBucket s2

-- -----------------------------------------------------------------------
-- Trace append (`cuda_trace_append`, 0-3 operands) and `cuda_trace_printf`
-- -----------------------------------------------------------------------

/-- `cuda_trace_append(type, cmd)` — 0 operands. -/
def cuda_trace_append0 (s : TraceState) (type : EnokiType) (cmd : String) :
    Nat × TraceState :=
  let idx := s.trace.length
  let s := { s with trace := s.trace ++
      [{ type := type, cmd := cmd, dep := [0, 0, 0], subtree_size := 1 }] }
  let s := cuda_inc_ref_ext s idx
  (idx, activeInsert s idx)

/-- Shared insertion tail of the 1–3 operand appends: a node with the given
    size, dependency slots and subtree size, one external reference, one
    internal reference per operand, inserted into the active set. -/
def appendNode (s : TraceState) (type : EnokiType) (cmd : String) (size : Nat)
    (dep : List Nat) (subtree : Nat) (args : List Nat) : Nat × TraceState :=
  let idx := s.trace.length
  let s := { s with trace := s.trace ++
      [{ type := type, cmd := cmd, size := size, dep := dep,
         subtree_size := subtree }] }
  let s := args.foldl cuda_inc_ref_int s
  let s := cuda_inc_ref_ext s idx
  (idx, activeInsert s idx)

/-- `cuda_trace_append(type, cmd, arg1)` — read-after-write barrier: a dirty
    operand forces a full evaluation before the node is inserted.  The
    `subtree_size` field is `uint32_t` in the source, so the sum is taken
    modulo `2^32`. -/
def cuda_trace_append1 (s : TraceState) (type : EnokiType) (cmd : String)
    (arg1 : Nat) : Except String (Nat × TraceState) := do
  if arg1 ≥ s.trace.length then
    Except.error "assertion failed: arg1 < tr.size()"
  else do
    let s ← if (getV s arg1).dirty then cuda_eval s else pure s
    pure (appendNode s type cmd (getV s arg1).size [arg1, 0, 0]
      (((getV s arg1).subtree_size + 1) % U32) [arg1])

/-- `cuda_trace_append(type, cmd, arg1, arg2)`. -/
def cuda_trace_append2 (s : TraceState) (type : EnokiType) (cmd : String)
    (arg1 arg2 : Nat) : Except String (Nat × TraceState) := do
  if arg1 ≥ s.trace.length || arg2 ≥ s.trace.length then
    Except.error "assertion failed: arg1 < tr.size() && arg2 < tr.size()"
  else do
    let s ← if (getV s arg1).dirty || (getV s arg2).dirty then cuda_eval s else pure s
    pure (appendNode s type cmd (max (getV s arg1).size (getV s arg2).size)
      [arg1, arg2, 0]
      (((getV s arg1).subtree_size + (getV s arg2).subtree_size + 1) % U32)
      [arg1, arg2])

/-- `cuda_trace_append(type, cmd, arg1, arg2, arg3)`. -/
def cuda_trace_append3 (s : TraceState) (type : EnokiType) (cmd : String)
    (arg1 arg2 arg3 : Nat) : Except String (Nat × TraceState) := do
  if arg1 ≥ s.trace.length || arg2 ≥ s.trace.length || arg3 ≥ s.trace.length then
    Except.error "assertion failed: args < tr.size()"
  else do
    let s ← if (getV s arg1).dirty || (getV s arg2).dirty || (getV s arg3).dirty
      then cuda_eval s else pure s
    pure (appendNode s type cmd
      (max (max (getV s arg1).size (getV s arg2).size) (getV s arg3).size)
      [arg1, arg2, arg3]
      (((getV s arg1).subtree_size + (getV s arg2).subtree_size +
        (getV s arg3).subtree_size + 1) % U32) [arg1, arg2, arg3])

/-- One packing line of the `cuda_trace_printf` block for argument `i`:
    `Float32` arguments are converted to `f64` first, all others are stored
    through a `$t`/`$r` placeholder pair. -/
def printfPackLine (tr : List Variable) (i : Nat) (argi : Nat) : String :=
  match (getVL tr argi).type with
  | EnokiType.Float32 =>
    "        cvt.f64.f32 %d0, $r" ++ toString (i + 2) ++ ";\n" ++
    "        st.local.f64 [buf + " ++ toString (i * 8) ++ "], %d0;\n"
  | _ =>
    "        st.local.$t" ++ toString (i + 2) ++ " [buf + " ++ toString (i * 8) ++
    "], $r" ++ toString (i + 2) ++ ";\n"

/-- The byte list of the format string rendered as a comma-separated decimal
    initialiser, including the terminating 0 that the C++ loop prints before
    breaking. -/
def printfFmtBytes : List Nat → String
  | [] => "0"
  | b :: rest => toString b ++ ", " ++ printfFmtBytes rest

/-- The PTX block built by `cuda_trace_printf` into its `ostringstream`. -/
def printfCmd (tr : List Variable) (fmt : List Nat) (args : List Nat) : String :=
  "\x7b\n" ++
  "        .global .align 1 .b8 fmt[] = \x7b" ++ printfFmtBytes fmt ++ "\x7d;\n" ++
  "        .local .align 8 .b8 buf[" ++ toString (8 * args.length) ++ "];\n" ++
  "        .reg.b64 %fmt_r, %buf_r;\n" ++
  String.join (args.enum.map (fun p => printfPackLine tr p.1 p.2)) ++
  "        cvta.global.u64 %fmt_r, fmt;\n" ++
  "        cvta.local.u64 %buf_r, buf;\n" ++
  "        \x7b\n" ++
  "            .param .b64 fmt_p;\n" ++
  "            .param .b64 buf_p;\n" ++
  "            .param .b32 rv_p;\n" ++
  "            st.param.b64 [fmt_p], %fmt_r;\n" ++
  "            st.param.b64 [buf_p], %buf_r;\n" ++
  "            call.uni (rv_p), vprintf, (fmt_p, buf_p);\n" ++
  "        \x7d\n" ++
  "    \x7d\n"

/-- `cuda_trace_printf`: build the `vprintf` PTX block, append it with 0–3
    operands, and mark the result as a side effect.  The format string is
    given as its byte values (the C `const char *` without the terminator).
    The C++ declares `uint32_t idx = 0;`, never assigns the result of
    `cuda_trace_append` to it, and then calls `cuda_var_mark_side_effect(idx)`
    — the model reproduces this faithfully.  The per-argument bound asserts of
    the C++ loop are checked up front. -/
def cuda_trace_printf (s : TraceState) (fmt : List Nat) (args : List Nat) :
    Except String TraceState := do
  if !(args.all (fun a => decide (a < s.trace.length))) then
    Except.error "assertion failed: arg[i] < tr.size()"
  else do
    let cmd := printfCmd s.trace fmt args
    let idx := 0
    match args with
    | [] =>
      let r := cuda_trace_append0 s EnokiType.UInt32 cmd
      cuda_var_mark_side_effect r.2 idx
    | [a0] => do
      let r ← cuda_trace_append1 s EnokiType.UInt32 cmd a0
      cuda_var_mark_side_effect r.2 idx
    | [a0, a1] => do
      let r ← cuda_trace_append2 s EnokiType.UInt32 cmd a0 a1
      cuda_var_mark_side_effect r.2 idx
    | [a0, a1, a2] => do
      let r ← cuda_trace_append3 s EnokiType.UInt32 cmd a0 a1 a2
      cuda_var_mark_side_effect r.2 idx
    | _ =>
      Except.error "cuda_trace_print(): at most 3 variables can be printed at once!"

-- -----------------------------------------------------------------------
-- State predicates used by the specification claims
-- -----------------------------------------------------------------------

/-- Every node carrying a set dirty flag is recorded in the dirty queue; this
    holds in every reachable state because `cuda_var_mark_dirty` is the only
    operation setting the flag and it pushes the index onto the queue. -/
def DirtyQueued (s : TraceState) : Prop :=
  ∀ i, (getV s i).dirty = true → i ∈ s.dirtyQ

/-- No node is dirty. -/
def NoDirty (s : TraceState) : Prop := ∀ i, (getV s i).dirty = false

/-- Every node's dependency array has the three slots of the C++
    `std::array<uint32_t, 3>`. -/
def DepWF (s : TraceState) : Prop := ∀ i, (getV s i).dep.length = 3

/-- Every materialised computed node (non-null data, non-empty template) has
    all three dependency slots zeroed. -/
def MatZero (s : TraceState) : Prop :=
  ∀ i, (getV s i).data = true → (getV s i).cmd ≠ "" → (getV s i).dep = [0, 0, 0]

/-- Relaxation of `MatZero` that excuses the members of `L` (used while a
    schedule is being assembled, before its edges are collapsed). -/
def MatZeroX (s : TraceState) (L : List Nat) : Prop :=
  ∀ i, (getV s i).data = true → (getV s i).cmd ≠ "" →
    (getV s i).dep = [0, 0, 0] ∨ i ∈ L

/-- How a state may evolve under the reference-count cascade and assembly:
    the trace keeps its length; the active set only loses members; per node,
    the instruction, size, subtree size and dirty flag are unchanged, the
    dependency slots can only be zeroed, and `data` can only be newly set for
    the indices collected in `L` (the schedule being assembled). -/
def ShrinkA (s t : TraceState) (L : List Nat) : Prop :=
  t.trace.length = s.trace.length ∧
  (∀ x, x ∈ t.active → x ∈ s.active) ∧
  (∀ i,
    (getV t i).cmd = (getV s i).cmd ∧
    (getV t i).size = (getV s i).size ∧
    (getV t i).subtree_size = (getV s i).subtree_size ∧
    (getV t i).dirty = (getV s i).dirty ∧
    (getV t i).dep.length = (getV s i).dep.length ∧
    ((getV t i).data = true → (getV s i).data = true ∨ i ∈ L) ∧
    (∀ k, (getV t i).dep.getD k 0 = (getV s i).dep.getD k 0 ∨
      (getV t i).dep.getD k 0 = 0))

/-- Trace length, per-node element count and subtree size are unchanged
    (what the append operations need to know about a forced evaluation). -/
def GeomEq (s t : TraceState) : Prop :=
  t.trace.length = s.trace.length ∧
  ∀ i, (getV t i).size = (getV s i).size ∧
    (getV t i).subtree_size = (getV s i).subtree_size

/-- Executable form of `DirtyQueued`. -/
def dirtyQueuedB (s : TraceState) : Bool :=
  (List.range s.trace.length).all (fun i => !(getV s i).dirty || s.dirtyQ.contains i)

/-- Executable form of `NoDirty`. -/
def noDirtyB (s : TraceState) : Bool := s.trace.all (fun v => !v.dirty)

/-- Executable form of `DepWF`. -/
def depLen3B (s : TraceState) : Bool := s.trace.all (fun v => v.dep.length == 3)

/-- Executable form of `MatZero`. -/
def matDepsB (s : TraceState) : Bool :=
  s.trace.all (fun v => !v.data || v.cmd == "" || v.dep == [0, 0, 0])


/-- Sequential register assignment as a list:
    `seqMap n [x0, x1, …] = [(x0, n), (x1, n + 1), …]`; the loop of
    `cuda_jit_assemble` produces exactly this map (plus `reg_map[2] = 2`). -/
def seqMap (n : Nat) : List Nat → List (Nat × Nat)
  | [] => []
  | x :: l => (x, n) :: seqMap (n + 1) l

/-- Every scheduled node is looked up at its sequential register index
    `ENOKI_CUDA_REG_RESERVED + position`. -/
def regMapSequentialB (sweep : List Nat) : Bool :=
  (List.range sweep.length).all
    (fun k => regMapFind (buildRegMap sweep) (sweep.getD k 0) ==
      some (ENOKI_CUDA_REG_RESERVED + k))

/-- Among the reserved indices only index 2 appears in the register map. -/
def regMapReservedUnmappedB (sweep : List Nat) : Bool :=
  (List.range ENOKI_CUDA_REG_RESERVED).all
    (fun j => (j == 2) || (regMapFind (buildRegMap sweep) j == none))

-- -----------------------------------------------------------------------
-- Concrete example states used by the counterexamples and witnesses
-- -----------------------------------------------------------------------

/-- Success-state projection used to name concrete states below; every use
    is accompanied by a proof that the operation did succeed. -/
def okState (r : Except String TraceState) : TraceState :=
  match r with
  | Except.ok t => t
  | Except.error _ => default

/-- Success-state projection for the append operations. -/
def okPairState (r : Except String (Nat × TraceState)) : TraceState :=
  match r with
  | Except.ok p => p.2
  | Except.error _ => default

/-- `init`, then one computed node (index 10). -/
def exInit1 : TraceState :=
  (cuda_trace_append0 cuda_init EnokiType.UInt32 "mov.u32 $r1, 0").2

/-- `exInit1`, then a second computed node (index 11). -/
def exInit2 : TraceState :=
  (cuda_trace_append0 exInit1 EnokiType.UInt32 "mov.u32 $r1, 1").2

/-- C1 scenario: node 11 marked as a side effect. -/
def c1marked : TraceState := okState (cuda_var_mark_side_effect exInit2 11)

/-- C1 scenario: the last external reference of side-effect node 11 dropped. -/
def c1dropped : TraceState := okState (cuda_dec_ref_ext c1marked 11)

/-- C4 scenario: node 10 after its only external reference is dropped —
    both of its reference counts are zero. -/
def c4zeroed : TraceState := okState (cuda_dec_ref_ext exInit1 10)

/-- C3 scenario: operands of subtree sizes 1 (node 10), 3 (chain 11-12-13)
    and 5 (chain 14-…-18) feeding the ternary node 19. -/
def c3sub1 : TraceState := exInit1

def c3sub3 : TraceState :=
  okPairState (cuda_trace_append1
    (okPairState (cuda_trace_append1
      (cuda_trace_append0 c3sub1 EnokiType.UInt32 "mov.u32 $r1, 0").2
      EnokiType.UInt32 "add.u32 $r1, $r2, $r2" 11))
    EnokiType.UInt32 "add.u32 $r1, $r2, $r2" 12)

def c3sub5 : TraceState :=
  okPairState (cuda_trace_append1
    (okPairState (cuda_trace_append1
      (okPairState (cuda_trace_append1
        (okPairState (cuda_trace_append1
          (cuda_trace_append0 c3sub3 EnokiType.UInt32 "mov.u32 $r1, 0").2
          EnokiType.UInt32 "add.u32 $r1, $r2, $r2" 14))
        EnokiType.UInt32 "add.u32 $r1, $r2, $r2" 15))
      EnokiType.UInt32 "add.u32 $r1, $r2, $r2" 16))
    EnokiType.UInt32 "add.u32 $r1, $r2, $r2" 17)

def c3state : TraceState :=
  okPairState (cuda_trace_append3 c3sub5 EnokiType.UInt32
    "mad.lo.u32 $r1, $r2, $r3, $r4" 10 13 18)

/-- C6 scenario: computed node 11 consumes computed node 10, whose external
    reference is dropped before evaluation (node 10 stays scheduled through
    its consumer but has no external reference left at assembly time). -/
def c6pre : TraceState :=
  okState (cuda_dec_ref_ext
    (okPairState (cuda_trace_append1 exInit1 EnokiType.UInt32
      "add.u32 $r1, $r2, $r2" 10)) 10)

def c6post : TraceState := okState (cuda_eval c6pre)

/-- C8 scenario: node 11 marked dirty, then consumed by an append. -/
def c8dirty : TraceState := okState (cuda_var_mark_dirty exInit2 11)

def c8post : TraceState :=
  okPairState (cuda_trace_append1 c8dirty EnokiType.UInt32
    "add.u32 $r1, $r2, $r2" 11)

/-- C7 scenario: a doubling chain of 2-operand appends.  `c7chain 0` is the
    initial state with one leaf node (index 10, subtree size 1); every step
    appends a node whose two operands are both the previous chain head, so
    the head of `c7chain n` is node `10 + n` with subtree size
    `(2^(n+1) - 1) mod 2^32`.  At `n = 31` the stored size is `2^32 - 1`; one
    more append wraps the `uint32_t` sum. -/
def c7chain : Nat → TraceState
  | 0 => (cuda_trace_append0 cuda_init EnokiType.UInt32 "mov.u32 $r1, 0").2
  | n + 1 =>
    let s := c7chain n
    okPairState (cuda_trace_append2 s EnokiType.UInt32 "add.u32 $r1, $r2, $r3"
      (s.trace.length - 1) (s.trace.length - 1))

-- -----------------------------------------------------------------------
-- Basic lemmas about the state operations
-- -----------------------------------------------------------------------

theorem except_bind_ok {α β : Type} (a : α) (k : α → Except String β) :
    (Except.ok a >>= k) = k a := rfl

theorem except_bind_err {α β : Type} (e : String) (k : α → Except String β) :
    ((Except.error e : Except String α) >>= k) = Except.error e := rfl

theorem except_pure {α : Type} (a : α) : (pure a : Except String α) = Except.ok a := rfl

theorem getV_lt (s : TraceState) (i : Nat) (h : i < s.trace.length) :
    getV s i = s.trace[i] := by
  simp [getV, getVL, List.getD_eq_getElem?_getD, List.getElem?_eq_getElem h]

theorem getV_oob (s : TraceState) (i : Nat) (h : s.trace.length ≤ i) :
    getV s i = default := by
  simp [getV, getVL, List.getD_eq_getElem?_getD, List.getElem?_eq_none h]

theorem default_variable :
    (default : Variable) = { type := EnokiType.Invalid } := rfl

theorem modV_trace_length (s : TraceState) (i : Nat) (f : Variable → Variable) :
    (modV s i f).trace.length = s.trace.length := by
  simp [modV, setV]

theorem modV_active (s : TraceState) (i : Nat) (f : Variable → Variable) :
    (modV s i f).active = s.active := rfl

theorem modV_dirtyQ (s : TraceState) (i : Nat) (f : Variable → Variable) :
    (modV s i f).dirtyQ = s.dirtyQ := rfl

theorem getV_modV (s : TraceState) (i : Nat) (f : Variable → Variable) (j : Nat) :
    getV (modV s i f) j =
      if i = j ∧ i < s.trace.length then f (getV s i) else getV s j := by
  simp only [getV, getVL, modV, setV, List.getD_eq_getElem?_getD, List.getElem?_set]
  by_cases h1 : i = j
  · subst h1
    by_cases h2 : i < s.trace.length
    · simp [h2, List.getElem?_eq_getElem h2]
    · simp [h2, List.getElem?_eq_none (Nat.le_of_not_lt h2)]
  · simp [h1]

theorem modV_oob (s : TraceState) (i : Nat) (f : Variable → Variable)
    (h : s.trace.length ≤ i) : modV s i f = s := by
  simp [modV, setV, List.set_eq_of_length_le h]

theorem activeErase_trace (s : TraceState) (i : Nat) :
    (activeErase s i).trace = s.trace := rfl

theorem activeErase_dirtyQ (s : TraceState) (i : Nat) :
    (activeErase s i).dirtyQ = s.dirtyQ := rfl

theorem getV_activeErase (s : TraceState) (i j : Nat) :
    getV (activeErase s i) j = getV s j := rfl

theorem mem_activeErase (s : TraceState) (i j : Nat) :
    j ∈ (activeErase s i).active ↔ j ∈ s.active ∧ j ≠ i := by
  simp [activeErase, List.mem_filter]

theorem dirtyQueuedB_iff (s : TraceState) : dirtyQueuedB s = true ↔ DirtyQueued s := by
  simp only [dirtyQueuedB, DirtyQueued, List.all_eq_true, List.mem_range]
  constructor
  · intro h i hd
    by_cases hi : i < s.trace.length
    · have := h i hi
      simp [hd] at this
      simpa [List.elem_iff] using this
    · rw [getV_oob s i (Nat.le_of_not_lt hi)] at hd
      simp [default_variable] at hd
  · intro h i _
    by_cases hd : (getV s i).dirty
    · simp [hd, List.elem_iff, h i hd]
    · simp [hd]

theorem noDirtyB_iff (s : TraceState) : noDirtyB s = true ↔ NoDirty s := by
  simp only [noDirtyB, NoDirty, List.all_eq_true]
  constructor
  · intro h i
    by_cases hi : i < s.trace.length
    · rw [getV_lt s i hi]
      simpa using h _ (List.getElem_mem hi)
    · rw [getV_oob s i (Nat.le_of_not_lt hi)]
      simp [default_variable]
  · intro h v hv
    obtain ⟨n, hn, rfl⟩ := List.mem_iff_getElem.mp hv
    have := h n
    rw [getV_lt s n hn] at this
    simp [this]

theorem depLen3B_iff (s : TraceState) : depLen3B s = true ↔ DepWF s := by
  simp only [depLen3B, DepWF, List.all_eq_true, beq_iff_eq]
  constructor
  · intro h i
    by_cases hi : i < s.trace.length
    · rw [getV_lt s i hi]
      exact h _ (List.getElem_mem hi)
    · rw [getV_oob s i (Nat.le_of_not_lt hi)]
      simp [default_variable]
  · intro h v hv
    obtain ⟨n, hn, rfl⟩ := List.mem_iff_getElem.mp hv
    have := h n
    rwa [getV_lt s n hn] at this

theorem matDepsB_iff (s : TraceState) : matDepsB s = true ↔ MatZero s := by
  simp only [matDepsB, MatZero, List.all_eq_true]
  constructor
  · intro h i hdata hcmd
    by_cases hi : i < s.trace.length
    · have := h _ (List.getElem_mem hi)
      rw [getV_lt s i hi] at hdata hcmd ⊢
      simp [hdata] at this
      rcases this with h1 | h1
      · exact absurd h1 hcmd
      · simpa using h1
    · rw [getV_oob s i (Nat.le_of_not_lt hi)] at hdata
      simp [default_variable] at hdata
  · intro h v hv
    obtain ⟨n, hn, rfl⟩ := List.mem_iff_getElem.mp hv
    by_cases hdata : s.trace[n].data
    · by_cases hcmd : s.trace[n].cmd = ""
      · simp [hcmd]
      · have := h n
        rw [getV_lt s n hn] at this
        simp [hdata, this hdata hcmd]
    · simp [hdata]

theorem isOk_ok {α : Type} (a : α) : (Except.ok a : Except String α).isOk = true := rfl

theorem isOk_error {α : Type} (e : String) :
    (Except.error e : Except String α).isOk = false := rfl

-- -----------------------------------------------------------------------
-- C10
-- -----------------------------------------------------------------------

/-- C10: `cuda_var_mark_side_effect` and `cuda_var_mark_dirty` require the
    index to be strictly greater than `ENOKI_CUDA_REG_RESERVED` (= 10), so
    they fail on index 10 itself — yet `cuda_init` fills exactly slots
    `0..9` and the first user-created node is assigned index 10. -/
theorem c10_mark_precondition :
    cuda_init.trace.length = ENOKI_CUDA_REG_RESERVED ∧
    (cuda_trace_append0 cuda_init EnokiType.UInt32 "mov.u32 $r1, 0").1 =
      ENOKI_CUDA_REG_RESERVED ∧
    (∀ s : TraceState,
      Except.isOk (cuda_var_mark_side_effect s ENOKI_CUDA_REG_RESERVED) = false) ∧
    (∀ s : TraceState,
      Except.isOk (cuda_var_mark_dirty s ENOKI_CUDA_REG_RESERVED) = false) ∧
    cuda_var_mark_side_effect exInit1 ENOKI_CUDA_REG_RESERVED =
      Except.error "assertion failed: index > ENOKI_CUDA_REG_RESERVED && index < tr.size()" ∧
    cuda_var_mark_dirty exInit1 ENOKI_CUDA_REG_RESERVED =
      Except.error "assertion failed: index > ENOKI_CUDA_REG_RESERVED && index < tr.size()" := by
  refine ⟨by decide, by decide, fun s => ?_, fun s => ?_, by decide, by decide⟩ <;>
    simp [cuda_var_mark_side_effect, cuda_var_mark_dirty, isOk_error]

-- -----------------------------------------------------------------------
-- C4
-- -----------------------------------------------------------------------

/-- C4 counterexample: node 10 of `c4zeroed` has internal reference count 0,
    yet `cuda_dec_ref_int` does not raise — it returns successfully with the
    `uint32_t` counter wrapped around to `2^32 - 1`. -/
theorem c4_counterexample :
    (getV c4zeroed 10).ref_count_int = 0 ∧
    Except.map (fun t => (getV t 10).ref_count_int) (cuda_dec_ref_int c4zeroed 10) =
      Except.ok 4294967295 := by decide

/-- C4 (amended): decrementing the external count at zero is a fatal error,
    but decrementing the internal count at zero is not checked — the
    `uint32_t` counter silently wraps to `2^32 - 1`. -/
theorem c4_dec_ref_guards (s : TraceState) (i : Nat)
    (hR : ENOKI_CUDA_REG_RESERVED ≤ i) (hlen : i < s.trace.length)
    (hext : (getV s i).ref_count_ext = 0) (hint : (getV s i).ref_count_int = 0) :
    cuda_dec_ref_ext s i = Except.error "cuda_dec_ref_ext(): Negative reference count!" ∧
    Except.map (fun t => (getV t i).ref_count_int) (cuda_dec_ref_int s i) =
      Except.ok (U32 - 1) := by
  have hne : s.trace.isEmpty = false := by
    cases h : s.trace with
    | nil => rw [h] at hlen; simp at hlen
    | cons a t => rfl
  have hnlt : ¬ i < ENOKI_CUDA_REG_RESERVED := Nat.not_lt.mpr hR
  constructor
  · simp [cuda_dec_ref_ext, hnlt, hne, hlen, hext]
  · obtain ⟨f, hf⟩ : ∃ f, evalFuel s = f + 1 :=
      ⟨2 * s.trace.length + 1, by simp [evalFuel]⟩
    have hmod : ((getV s i).ref_count_int + U32 - 1) % U32 = U32 - 1 := by
      rw [hint]; norm_num [U32]
    have hget : getV (modV s i
        (fun v => { v with ref_count_int := (v.ref_count_int + U32 - 1) % U32 })) i =
        { getV s i with ref_count_int := U32 - 1 } := by
      rw [getV_modV]
      simp [hlen, hmod]
    have hcol : (getV (modV s i
        (fun v => { v with ref_count_int :=
          (v.ref_count_int + U32 - 1) % U32 })) i).is_collected = false := by
      rw [hget]
      simp [Variable.is_collected, U32]
    rw [cuda_dec_ref_int, hf]
    simp only [cuda_dec_ref_int_f, hnlt, if_false, hne, Bool.false_eq_true,
      hlen, if_true, hcol]
    have hval : (getV (modV s i (fun v =>
        { v with ref_count_int := (v.ref_count_int + U32 - 1) % U32 })) i).ref_count_int =
        U32 - 1 := by rw [hget]
    exact congrArg Except.ok hval

/-- C4 witness: the amended theorem applied to node 10 of `c4zeroed`. -/
theorem c4_witness :
    (ENOKI_CUDA_REG_RESERVED ≤ 10 ∧ 10 < c4zeroed.trace.length ∧
     (getV c4zeroed 10).ref_count_ext = 0 ∧ (getV c4zeroed 10).ref_count_int = 0) ∧
    cuda_dec_ref_ext c4zeroed 10 =
      Except.error "cuda_dec_ref_ext(): Negative reference count!" ∧
    Except.map (fun t => (getV t 10).ref_count_int) (cuda_dec_ref_int c4zeroed 10) =
      Except.ok (U32 - 1) :=
  ⟨⟨by decide, by decide, by decide, by decide⟩,
   (c4_dec_ref_guards c4zeroed 10 (by decide) (by decide) (by decide) (by decide)).1,
   (c4_dec_ref_guards c4zeroed 10 (by decide) (by decide) (by decide) (by decide)).2⟩

-- -----------------------------------------------------------------------
-- C5
-- -----------------------------------------------------------------------

/-- C5: the template expander is claimed to raise on every malformed
    `$`-sequence.  The range check `dep_offset < 1 && dep_offset > 4` is
    unsatisfiable (the source wrote `&&` where `||` was needed), so a digit
    outside 1–4 is never caught: `$t5` walks straight into an out-of-bounds
    read of the three-slot dependency array instead of raising the intended
    `out of bounds` error, and a `$` within two characters of the end of the
    template is copied to the output verbatim instead of raising.  A wrong
    letter (`$x1`) does raise. -/
theorem c5_dead_range_guard :
    (∀ d : Nat, renderRangeGuard d = false) ∧
    renderChars exInit1.trace (buildRegMap [10]) 10 "$t5".toList =
      Except.error "undefined behavior: dependency slot index out of range" ∧
    renderChars exInit1.trace (buildRegMap [10]) 10 "$t0".toList =
      Except.error "undefined behavior: dependency slot index out of range" ∧
    renderChars exInit1.trace (buildRegMap [10]) 10 "ab$r".toList =
      Except.ok "ab$r" ∧
    renderChars exInit1.trace (buildRegMap [10]) 10 "$x1 b".toList =
      Except.error "cuda_render_cmd: invalid '$' template!" ∧
    cuda_render_cmd exInit1.trace (buildRegMap [10]) 10 =
      Except.ok "    mov.u32 %r10, 0;\n" := by
  refine ⟨fun d => ?_, by decide, by decide, by decide, by decide, by decide⟩
  simp only [renderRangeGuard, Bool.and_eq_false_iff, decide_eq_false_iff_not]
  omega

-- -----------------------------------------------------------------------
-- C2
-- -----------------------------------------------------------------------

theorem mark_side_effect_zero (s : TraceState) :
    cuda_var_mark_side_effect s 0 =
      Except.error "assertion failed: index > ENOKI_CUDA_REG_RESERVED && index < tr.size()" := by
  simp [cuda_var_mark_side_effect, ENOKI_CUDA_REG_RESERVED]

/-- C2: `cuda_trace_printf` builds the `vprintf` block and appends it with
    0–3 operands (more than 3 is an error), but the local `idx` is never
    assigned the result of `cuda_trace_append`, so the function always calls
    `cuda_var_mark_side_effect(0)` — reserved node 0, not the appended node —
    which trips that function's own assertion: no call to the printf emitter
    can succeed.  On the concrete state the appended node would have been
    index 11. -/
theorem c2_printf_marks_reserved_zero :
    (∀ (s : TraceState) (fmt args : List Nat),
      Except.isOk (cuda_trace_printf s fmt args) = false) ∧
    cuda_trace_printf exInit1 [37, 100, 10] [10] =
      Except.error "assertion failed: index > ENOKI_CUDA_REG_RESERVED && index < tr.size()" ∧
    Except.map (fun p => p.1)
      (cuda_trace_append1 exInit1 EnokiType.UInt32
        (printfCmd exInit1.trace [37, 100, 10] [10]) 10) = Except.ok 11 ∧
    cuda_trace_printf exInit1 [37] [10, 10, 10, 10] =
      Except.error "cuda_trace_print(): at most 3 variables can be printed at once!" := by
  refine ⟨fun s fmt args => ?_, by decide, by decide, by decide⟩
  unfold cuda_trace_printf
  split
  · rfl
  · rcases args with _ | ⟨a0, _ | ⟨a1, _ | ⟨a2, _ | ⟨a3, rest⟩⟩⟩⟩
    · simp [mark_side_effect_zero, isOk_error]
    · cases h : cuda_trace_append1 s EnokiType.UInt32
        (printfCmd s.trace fmt [a0]) a0 with
      | ok p => simp [h, except_bind_ok, mark_side_effect_zero, isOk_error]
      | error e => simp [h, except_bind_err, isOk_error]
    · cases h : cuda_trace_append2 s EnokiType.UInt32
        (printfCmd s.trace fmt [a0, a1]) a0 a1 with
      | ok p => simp [h, except_bind_ok, mark_side_effect_zero, isOk_error]
      | error e => simp [h, except_bind_err, isOk_error]
    · cases h : cuda_trace_append3 s EnokiType.UInt32
        (printfCmd s.trace fmt [a0, a1, a2]) a0 a1 a2 with
      | ok p => simp [h, except_bind_ok, mark_side_effect_zero, isOk_error]
      | error e => simp [h, except_bind_err, isOk_error]
    · rfl

-- -----------------------------------------------------------------------
-- C3
-- -----------------------------------------------------------------------

/-- C3 counterexample: node 19 of `c3state` has dependencies 10, 13, 18 with
    subtree sizes 1, 3 and 5.  The compare-exchange sequence of
    `sweep_recursive` rearranges the slots to `(18, 10, 13)` — sizes
    `(5, 1, 3)`, not descending — and the resulting schedule emits node 10
    (the subtree-1 operand) before nodes 11, 12, 13 (the descendants of the
    heavier subtree-3 operand), refuting the claimed descending reorder. -/
theorem c3_counterexample :
    (getV c3state 10).subtree_size = 1 ∧
    (getV c3state 13).subtree_size = 3 ∧
    (getV c3state 18).subtree_size = 5 ∧
    (getV c3state 19).dep = [10, 13, 18] ∧
    sweepSortDeps c3state.trace (depsTriple c3state.trace 19) = (18, 10, 13) ∧
    ¬ ((getV c3state 13).subtree_size ≤ (getV c3state 10).subtree_size) ∧
    (sweep_recursive_f (sweepFuel c3state.trace) c3state.trace ([], []) 19).2 =
      [14, 15, 16, 17, 18, 10, 11, 12, 13, 19] := by decide

/-- C3 (amended): the three compare-exchange steps of `sweep_recursive` do
    not sort the dependency slots into descending `subtree_size` order in
    general (see the counterexample), but they do always move a dependency of
    maximal priority into slot 0, so the heaviest sub-expression is recursed
    into (and hence emitted) first, and the slots remain a permutation of the
    original dependencies. -/
theorem c3_heaviest_first (tr : List Variable) (d : Nat × Nat × Nat) :
    sweepPrio tr d.1 ≤ sweepPrio tr (sweepSortDeps tr d).1 ∧
    sweepPrio tr d.2.1 ≤ sweepPrio tr (sweepSortDeps tr d).1 ∧
    sweepPrio tr d.2.2 ≤ sweepPrio tr (sweepSortDeps tr d).1 ∧
    ((sweepSortDeps tr d).1 = d.1 ∨ (sweepSortDeps tr d).1 = d.2.1 ∨
      (sweepSortDeps tr d).1 = d.2.2) := by
  obtain ⟨a, b, c⟩ := d
  simp only [sweepSortDeps]
  split_ifs <;> simp_all <;> omega

-- -----------------------------------------------------------------------
-- C9
-- -----------------------------------------------------------------------

theorem regMapInsert_not_mem (m : List (Nat × Nat)) (k v : Nat)
    (h : ∀ p ∈ m, p.1 ≠ k) : regMapInsert m k v = m ++ [(k, v)] := by
  have hany : m.any (fun p => p.1 == k) = false := by
    rw [List.any_eq_false]
    intro p hp
    simp [h p hp]
  simp [regMapInsert, hany]

theorem seqMap_fst_mem {p : Nat × Nat} :
    ∀ (n : Nat) (l : List Nat), p ∈ seqMap n l → p.1 ∈ l := by
  intro n l
  induction l generalizing n with
  | nil => simp [seqMap]
  | cons x t ih =>
    intro hp
    simp only [seqMap, List.mem_cons] at hp ⊢
    rcases hp with h | h
    · left; rw [h]
    · right; exact ih (n + 1) h

theorem buildRegMap_fold (sweep : List Nat) :
    ∀ (acc : List (Nat × Nat)) (n : Nat),
    (∀ p ∈ acc, p.1 ∉ sweep) → sweep.Nodup →
    (sweep.foldl (fun acc2 idx => (regMapInsert acc2.1 idx acc2.2, acc2.2 + 1))
      (acc, n)).1 = acc ++ seqMap n sweep := by
  induction sweep with
  | nil => intro acc n _ _; simp [seqMap]
  | cons x l ih =>
    intro acc n hd hnd
    simp only [List.foldl_cons]
    rw [regMapInsert_not_mem acc x n
      (fun p hp hx => hd p hp (by rw [hx]; exact List.mem_cons_self x l))]
    rw [ih (acc ++ [(x, n)]) (n + 1) ?_ (List.Nodup.of_cons hnd)]
    · simp [seqMap]
    · intro p hp
      rcases List.mem_append.mp hp with h | h
      · exact fun hx => hd p h (List.mem_cons_of_mem _ hx)
      · simp only [List.mem_singleton] at h
        rw [h]
        exact (List.nodup_cons.mp hnd).1

theorem buildRegMap_eq (sweep : List Nat)
    (h10 : ∀ x ∈ sweep, ENOKI_CUDA_REG_RESERVED ≤ x) (hnd : sweep.Nodup) :
    buildRegMap sweep = seqMap ENOKI_CUDA_REG_RESERVED sweep ++ [(2, 2)] := by
  unfold buildRegMap
  rw [buildRegMap_fold sweep [] ENOKI_CUDA_REG_RESERVED (by simp) hnd]
  simp only [List.nil_append]
  apply regMapInsert_not_mem
  intro p hp hq
  have := h10 p.1 (seqMap_fst_mem ENOKI_CUDA_REG_RESERVED sweep hp)
  rw [hq] at this
  simp [ENOKI_CUDA_REG_RESERVED] at this

theorem seqMap_find_self (l : List Nat) :
    ∀ (n k : Nat), l.Nodup → k < l.length →
    regMapFind (seqMap n l) (l.getD k 0) = some (n + k) := by
  induction l with
  | nil => intro n k _ h; simp at h
  | cons x t ih =>
    intro n k hnd hk
    cases k with
    | zero => simp [seqMap, regMapFind]
    | succ k' =>
      have hk' : k' < t.length := by simpa using hk
      have hmem : t.getD k' 0 ∈ t := by
        rw [List.getD_eq_getElem?_getD, List.getElem?_eq_getElem hk']
        exact List.getElem_mem hk'
      have hx : (x == t.getD k' 0) = false := by
        have hne : x ≠ t.getD k' 0 :=
          fun he => (List.nodup_cons.mp hnd).1 (he ▸ hmem)
        exact beq_eq_false_iff_ne.mpr hne
      have := ih (n + 1) k' (List.Nodup.of_cons hnd) hk'
      simp only [seqMap, regMapFind, List.getD_cons_succ, List.find?_cons, hx] at this ⊢
      rw [this]
      congr 1
      omega

theorem seqMap_find_not_mem (l : List Nat) :
    ∀ (n k : Nat), k ∉ l → regMapFind (seqMap n l) k = none := by
  induction l with
  | nil => intro n k _; simp [seqMap, regMapFind]
  | cons x t ih =>
    intro n k hk
    have hne : (x == k) = false := by
      simp only [List.mem_cons, not_or] at hk
      simp [Ne.symm hk.1]
    simp only [seqMap, regMapFind, List.find?_cons, hne]
    have := ih (n + 1) k (fun h => hk (List.mem_cons_of_mem _ h))
    simpa [regMapFind] using this

/-- C9 counterexample: the schedule of a real evaluation (two computed
    nodes) yields the register map `[(10,10), (11,11), (2,2)]`: of the
    reserved indices `0..9` only index 2 is mapped to itself — looking up
    reserved indices 0 or 3 fails — refuting "every reserved index 0..R-1 is
    mapped to itself". -/
theorem c9_counterexample :
    scheduleOf exInit2 = [(1, [10, 11])] ∧
    buildRegMap [10, 11] = [(10, 10), (11, 11), (2, 2)] ∧
    regMapFind (buildRegMap [10, 11]) 0 = none ∧
    regMapFind (buildRegMap [10, 11]) 3 = none ∧
    regMapFind (buildRegMap [10, 11]) 2 = some 2 := by decide

/-- C9 (amended): register allocation assigns the scheduled nodes the
    sequential indices `R, R+1, …, R+|schedule|-1` (a bijection between the
    schedule positions and that range), but of the reserved indices `0..R-1`
    only index 2 is mapped to itself; the others are absent from the register
    map. -/
theorem c9_register_allocation (sweep : List Nat)
    (h10 : ∀ x ∈ sweep, ENOKI_CUDA_REG_RESERVED ≤ x) (hnd : sweep.Nodup) :
    regMapSequentialB sweep = true ∧
    regMapFind (buildRegMap sweep) 2 = some 2 ∧
    regMapReservedUnmappedB sweep = true := by
  have heq := buildRegMap_eq sweep h10 hnd
  have hfind : ∀ k, regMapFind (buildRegMap sweep) k =
      (((seqMap ENOKI_CUDA_REG_RESERVED sweep).find? (fun p => p.1 == k)).or
        (([(2, 2)] : List (Nat × Nat)).find? (fun p => p.1 == k))).map
        (fun p : Nat × Nat => p.2) := by
    intro k
    rw [regMapFind, heq, List.find?_append]
  refine ⟨?_, ?_, ?_⟩
  · rw [regMapSequentialB, List.all_eq_true]
    intro k hk
    rw [List.mem_range] at hk
    have hself := seqMap_find_self sweep ENOKI_CUDA_REG_RESERVED k hnd hk
    rw [regMapFind] at hself
    rw [beq_iff_eq, hfind (sweep.getD k 0)]
    rcases hsome : (seqMap ENOKI_CUDA_REG_RESERVED sweep).find?
        (fun p => p.1 == sweep.getD k 0) with _ | p
    · rw [hsome] at hself; simp at hself
    · rw [hsome] at hself
      rw [hsome]
      exact hself
  · rw [hfind 2]
    have h2 : (2 : Nat) ∉ sweep := by
      intro h
      have := h10 2 h
      simp [ENOKI_CUDA_REG_RESERVED] at this
    have hn := seqMap_find_not_mem sweep ENOKI_CUDA_REG_RESERVED 2 h2
    rw [regMapFind] at hn
    rcases hsome : (seqMap ENOKI_CUDA_REG_RESERVED sweep).find?
        (fun p => p.1 == 2) with _ | p
    · rw [hsome]; rfl
    · rw [hsome] at hn; simp at hn
  · rw [regMapReservedUnmappedB, List.all_eq_true]
    intro j hj
    rw [List.mem_range] at hj
    by_cases h2 : j = 2
    · simp [h2]
    · have hjm : j ∉ sweep := by
        intro h
        have := h10 j h
        omega
      have hn := seqMap_find_not_mem sweep ENOKI_CUDA_REG_RESERVED j hjm
      rw [regMapFind] at hn
      rcases hsome : (seqMap ENOKI_CUDA_REG_RESERVED sweep).find?
          (fun p => p.1 == j) with _ | p
      · have hj2 : ((2 : Nat) == j) = false := beq_eq_false_iff_ne.mpr (Ne.symm h2)
        have hnone : regMapFind (buildRegMap sweep) j = none := by
          rw [hfind j, hsome]
          show Option.map _ (List.find? (fun p => p.1 == j) [(2, 2)]) = none
          simp [List.find?, hj2]
        simp [hnone]
      · rw [hsome] at hn; simp at hn

/-- C9 witness: the amended theorem applied to the schedule `[10, 11]`. -/
theorem c9_witness :
    (([10, 11] : List Nat).all (fun x => decide (ENOKI_CUDA_REG_RESERVED ≤ x)) = true ∧
     ([10, 11] : List Nat).Nodup) ∧
    regMapSequentialB [10, 11] = true ∧
    regMapFind (buildRegMap [10, 11]) 2 = some 2 ∧
    regMapReservedUnmappedB [10, 11] = true :=
  ⟨⟨by decide, by decide⟩,
   (c9_register_allocation [10, 11] (by decide) (by decide)).1,
   (c9_register_allocation [10, 11] (by decide) (by decide)).2.1,
   (c9_register_allocation [10, 11] (by decide) (by decide)).2.2⟩

-- -----------------------------------------------------------------------
-- ShrinkA: how the cascade, assembly and collapse evolve the state
-- -----------------------------------------------------------------------

theorem shrinkA_refl (s : TraceState) (L : List Nat) : ShrinkA s s L := by
  refine ⟨rfl, fun x hx => hx, fun i => ⟨rfl, rfl, rfl, rfl, rfl, fun h => Or.inl h,
    fun k => Or.inl rfl⟩⟩

theorem shrinkA_trans {s t u : TraceState} {L : List Nat}
    (h1 : ShrinkA s t L) (h2 : ShrinkA t u L) : ShrinkA s u L := by
  obtain ⟨hl1, ha1, hf1⟩ := h1
  obtain ⟨hl2, ha2, hf2⟩ := h2
  refine ⟨hl2.trans hl1, fun x hx => ha1 x (ha2 x hx), fun i => ?_⟩
  obtain ⟨c1, z1, b1, d1, e1, m1, p1⟩ := hf1 i
  obtain ⟨c2, z2, b2, d2, e2, m2, p2⟩ := hf2 i
  refine ⟨c2.trans c1, z2.trans z1, b2.trans b1, d2.trans d1, e2.trans e1,
    fun h => ?_, fun k => ?_⟩
  · rcases m2 h with h' | h'
    · exact m1 h'
    · exact Or.inr h'
  · rcases p2 k with h' | h'
    · rw [h']; exact p1 k
    · exact Or.inr h'

theorem shrinkA_mono {s t : TraceState} {L L' : List Nat}
    (h : ShrinkA s t L) (hL : ∀ x ∈ L, x ∈ L') : ShrinkA s t L' := by
  obtain ⟨hl, ha, hf⟩ := h
  refine ⟨hl, ha, fun i => ?_⟩
  obtain ⟨c, z, b, d, e, m, p⟩ := hf i
  exact ⟨c, z, b, d, e, fun hh => (m hh).imp id (hL i), p⟩

/-- A `modV` whose function keeps the instruction, size, subtree size, dirty
    flag and data, and only zeroes dependency slots, is a `ShrinkA` step. -/
theorem shrinkA_modV (s : TraceState) (i : Nat) (f : Variable → Variable)
    (L : List Nat)
    (hf : ∀ v, (f v).cmd = v.cmd ∧ (f v).size = v.size ∧
      (f v).subtree_size = v.subtree_size ∧ (f v).dirty = v.dirty ∧
      (f v).dep.length = v.dep.length ∧
      ((f v).data = true → v.data = true ∨ i ∈ L) ∧
      (∀ k, (f v).dep.getD k 0 = v.dep.getD k 0 ∨ (f v).dep.getD k 0 = 0)) :
    ShrinkA s (modV s i f) L := by
  refine ⟨modV_trace_length s i f, fun x hx => by rwa [modV_active] at hx,
    fun j => ?_⟩
  rw [getV_modV]
  by_cases hij : i = j ∧ i < s.trace.length
  · obtain ⟨he, hlt⟩ := hij
    subst he
    rw [if_pos ⟨rfl, hlt⟩]
    exact hf (getV s i)
  · rw [if_neg hij]
    exact ⟨rfl, rfl, rfl, rfl, rfl, fun h => Or.inl h, fun k => Or.inl rfl⟩

theorem shrinkA_activeErase (s : TraceState) (i : Nat) (L : List Nat) :
    ShrinkA s (activeErase s i) L := by
  refine ⟨rfl, fun x hx => ((mem_activeErase s i x).mp hx).1, fun j =>
    ⟨rfl, rfl, rfl, rfl, rfl, fun h => Or.inl h, fun k => Or.inl rfl⟩⟩

theorem shrinkA_dep_set_zero (s : TraceState) (i : Nat) (slot : Nat) (L : List Nat) :
    ShrinkA s (modV s i (fun v => { v with dep := v.dep.set slot 0 })) L := by
  apply shrinkA_modV
  intro v
  refine ⟨rfl, rfl, rfl, rfl, List.length_set v.dep slot 0, fun h => Or.inl h,
    fun k => ?_⟩
  simp only [List.getD_eq_getElem?_getD, List.getElem?_set]
  by_cases hk : slot = k
  · subst hk
    by_cases hlt : slot < v.dep.length
    · rw [if_pos rfl, if_pos hlt]
      exact Or.inr rfl
    · rw [if_pos rfl, if_neg hlt]
      exact Or.inr rfl
  · rw [if_neg hk]
    exact Or.inl rfl

theorem decInt_varFree_shrink (fuel : Nat) :
    (∀ s i t, cuda_dec_ref_int_f fuel s i = Except.ok t → ShrinkA s t []) ∧
    (∀ s i t, cuda_var_free_f fuel s i = Except.ok t → ShrinkA s t []) := by
  induction fuel with
  | zero =>
    constructor <;> intro s i t h <;>
      simp [cuda_dec_ref_int_f, cuda_var_free_f] at h
  | succ n ih =>
    constructor
    · intro s i t h
      simp only [cuda_dec_ref_int_f] at h
      split at h
      · exact (Except.ok.injEq _ _ ▸ h) ▸ shrinkA_refl s []
      · split at h
        · exact absurd h (by simp)
        · split at h
          · have hstep : ShrinkA s (modV s i (fun v =>
                { v with ref_count_int := (v.ref_count_int + U32 - 1) % U32 })) [] := by
              apply shrinkA_modV
              intro v
              exact ⟨rfl, rfl, rfl, rfl, rfl, fun hh => Or.inl hh, fun k => Or.inl rfl⟩
            split at h
            · exact shrinkA_trans hstep (ih.2 _ i t h)
            · cases h
              exact hstep
          · exact absurd h (by simp)
    · intro s i t h
      simp only [cuda_var_free_f] at h
      cases h1 : cuda_dec_ref_int_f n s ((getV s i).dep.getD 0 0) with
      | error e => rw [h1] at h; exact absurd h (by simp [except_bind_err])
      | ok s1 =>
        rw [h1, except_bind_ok] at h
        cases h2 : cuda_dec_ref_int_f n
            (modV s1 i (fun v => { v with dep := v.dep.set 0 0 }))
            ((getV (modV s1 i (fun v => { v with dep := v.dep.set 0 0 })) i).dep.getD 1 0) with
        | error e => rw [h2] at h; exact absurd h (by simp [except_bind_err])
        | ok s2 =>
          rw [h2, except_bind_ok] at h
          cases h3 : cuda_dec_ref_int_f n
              (modV s2 i (fun v => { v with dep := v.dep.set 1 0 }))
              ((getV (modV s2 i (fun v => { v with dep := v.dep.set 1 0 })) i).dep.getD 2 0) with
          | error e => rw [h3] at h; exact absurd h (by simp [except_bind_err])
          | ok s3 =>
            rw [h3, except_bind_ok] at h
            cases h
            exact shrinkA_trans (ih.1 _ _ _ h1)
              (shrinkA_trans (shrinkA_dep_set_zero s1 i 0 [])
                (shrinkA_trans (ih.1 _ _ _ h2)
                  (shrinkA_trans (shrinkA_dep_set_zero s2 i 1 [])
                    (shrinkA_trans (ih.1 _ _ _ h3)
                      (shrinkA_trans (shrinkA_dep_set_zero s3 i 2 [])
                        (shrinkA_modV _ i _ [] (fun v =>
                          ⟨rfl, rfl, rfl, rfl, rfl, fun hh => by simp at hh,
                           fun k => Or.inl rfl⟩)))))))

theorem decExt_shrink (s : TraceState) (i : Nat) (t : TraceState)
    (h : cuda_dec_ref_ext s i = Except.ok t) : ShrinkA s t [] := by
  simp only [cuda_dec_ref_ext] at h
  split at h
  · cases h
    exact shrinkA_refl s []
  · split at h
    · split at h
      · exact absurd h (by simp)
      · have hstep : ShrinkA s (modV s i (fun v =>
            { v with ref_count_ext := v.ref_count_ext - 1 })) [] :=
          shrinkA_modV s i _ []
            (fun v => ⟨rfl, rfl, rfl, rfl, rfl, fun hh => Or.inl hh,
              fun k => Or.inl rfl⟩)
        set s1 := modV s i (fun v =>
          { v with ref_count_ext := v.ref_count_ext - 1 }) with hs1
        set s2 := if (getV s1 i).ref_count_ext == 0 then activeErase s1 i else s1
          with hs2
        have hstep2 : ShrinkA s s2 [] := by
          rw [hs2]
          split
          · exact shrinkA_trans hstep (shrinkA_activeErase s1 i [])
          · exact hstep
        split at h
        · exact shrinkA_trans hstep2 ((decInt_varFree_shrink (evalFuel s2)).2 _ i t h)
        · rw [except_pure] at h
          exact (Except.ok.inj h) ▸ hstep2
    · exact absurd h (by simp)

theorem collapseStep_shrink (s : TraceState) (i : Nat) (t : TraceState)
    (h : collapseStep s i = Except.ok t) : ShrinkA s t [] := by
  simp only [collapseStep] at h
  split at h
  · cases h1 : cuda_dec_ref_int_f (evalFuel s) s ((getV s i).dep.getD 0 0) with
    | error e => rw [h1] at h; exact absurd h (by simp [except_bind_err])
    | ok s1 =>
      rw [h1, except_bind_ok] at h
      set m1 := modV s1 i (fun v2 => { v2 with dep := v2.dep.set 0 0 }) with hm1
      cases h2 : cuda_dec_ref_int_f (evalFuel m1) m1 ((getV m1 i).dep.getD 1 0) with
      | error e => rw [h2] at h; exact absurd h (by simp [except_bind_err])
      | ok s2 =>
        rw [h2, except_bind_ok] at h
        set m2 := modV s2 i (fun v2 => { v2 with dep := v2.dep.set 1 0 }) with hm2
        cases h3 : cuda_dec_ref_int_f (evalFuel m2) m2 ((getV m2 i).dep.getD 2 0) with
        | error e => rw [h3] at h; exact absurd h (by simp [except_bind_err])
        | ok s3 =>
          rw [h3, except_bind_ok] at h
          cases h
          exact shrinkA_trans ((decInt_varFree_shrink _).1 _ _ _ h1)
            (shrinkA_trans (shrinkA_dep_set_zero s1 i 0 [])
              (shrinkA_trans ((decInt_varFree_shrink _).1 _ _ _ h2)
                (shrinkA_trans (shrinkA_dep_set_zero s2 i 1 [])
                  (shrinkA_trans ((decInt_varFree_shrink _).1 _ _ _ h3)
                    (shrinkA_dep_set_zero s3 i 2 [])))))
  · cases h
    exact shrinkA_refl s []

theorem collapseFold_shrink (l : List Nat) :
    ∀ (s t : TraceState), l.foldlM collapseStep s = Except.ok t → ShrinkA s t [] := by
  induction l with
  | nil =>
    intro s t h
    simp only [List.foldlM_nil] at h
    cases h
    exact shrinkA_refl s []
  | cons x l2 ih =>
    intro s t h
    simp only [List.foldlM_cons] at h
    cases h1 : collapseStep s x with
    | error e => rw [h1] at h; exact absurd h (by simp [except_bind_err])
    | ok s1 =>
      rw [h1, except_bind_ok] at h
      exact shrinkA_trans (collapseStep_shrink s x s1 h1) (ih s1 t h)

theorem assembleStep_shrink (size : Nat) (rm : List (Nat × Nat))
    (s : TraceState) (p : List Nat) (index : Nat) (t : TraceState) (p' : List Nat)
    (h : assembleStep size rm (s, p) index = Except.ok (t, p')) :
    ShrinkA s t [index] := by
  simp only [assembleStep] at h
  split at h
  · exact absurd h (by simp)
  · split at h
    · exact absurd h (by simp)
    · split at h
      · rw [except_pure] at h
        have he := (Prod.mk.injEq _ _ _ _).mp (Except.ok.inj h)
        exact he.1 ▸ shrinkA_refl s [index]
      · have tail : ∀ s1 : TraceState, ShrinkA s s1 [index] →
            ((if ((getV s1 index).ref_count_ext == 0) = true then pure (s1, p)
              else if ((getV s1 index).size != size) = true then pure (s1, p)
              else pure (modV s1 index (fun v2 => { v2 with data := true }),
                p ++ [index])) : Except String (TraceState × List Nat)) =
              Except.ok (t, p') →
            ShrinkA s t [index] := by
          intro s1 hs1 hh
          split at hh
          · rw [except_pure] at hh
            exact ((Prod.mk.injEq _ _ _ _).mp (Except.ok.inj hh)).1 ▸ hs1
          · split at hh
            · rw [except_pure] at hh
              exact ((Prod.mk.injEq _ _ _ _).mp (Except.ok.inj hh)).1 ▸ hs1
            · rw [except_pure] at hh
              refine ((Prod.mk.injEq _ _ _ _).mp (Except.ok.inj hh)).1 ▸
                shrinkA_trans hs1 ?_
              apply shrinkA_modV
              intro v
              exact ⟨rfl, rfl, rfl, rfl, rfl, fun _ => Or.inr (by simp),
                fun k => Or.inl rfl⟩
        cases hr : cuda_render_cmd s.trace rm index with
        | error e => rw [hr] at h; exact absurd h (by simp [except_bind_err])
        | ok txt =>
          rw [hr, except_bind_ok] at h
          split at h
          · cases hd : cuda_dec_ref_ext s index with
            | error e => rw [hd] at h; exact absurd h (by simp [except_bind_err])
            | ok s1 =>
              rw [hd, except_bind_ok] at h
              exact tail s1
                (shrinkA_mono (decExt_shrink s index s1 hd) (by simp)) h
          · rw [except_pure, except_bind_ok] at h
            exact tail s (shrinkA_refl s [index]) h

theorem assembleFold_shrink (size : Nat) (rm : List (Nat × Nat)) (L : List Nat) :
    ∀ (l : List Nat), (∀ x ∈ l, x ∈ L) →
    ∀ (s : TraceState) (p : List Nat) (t : TraceState) (p' : List Nat),
    l.foldlM (assembleStep size rm) (s, p) = Except.ok (t, p') → ShrinkA s t L := by
  intro l
  induction l with
  | nil =>
    intro _ s p t p' h
    simp only [List.foldlM_nil] at h
    rw [except_pure] at h
    exact ((Prod.mk.injEq _ _ _ _).mp (Except.ok.inj h)).1 ▸ shrinkA_refl s L
  | cons x l2 ih =>
    intro hl s p t p' h
    simp only [List.foldlM_cons] at h
    cases h1 : assembleStep size rm (s, p) x with
    | error e => rw [h1] at h; exact absurd h (by simp [except_bind_err])
    | ok r =>
      rw [h1, except_bind_ok] at h
      have hx : ShrinkA s r.1 L :=
        shrinkA_mono (assembleStep_shrink size rm s p x r.1 r.2 (by rw [h1]))
          (by intro y hy; simp at hy; exact hy ▸ hl x (List.mem_cons_self x l2))
      exact shrinkA_trans hx
        (ih (fun y hy => hl y (List.mem_cons_of_mem x hy)) r.1 r.2 t p' h)

theorem assemble_shrink (s : TraceState) (size : Nat) (sweep : List Nat)
    (t : TraceState) (p : List Nat)
    (h : cuda_jit_assemble s size sweep = Except.ok (t, p)) : ShrinkA s t sweep :=
  assembleFold_shrink size (buildRegMap sweep) sweep sweep (fun _ hx => hx)
    s [] t p h

theorem evalBucket_shrink (s : TraceState) (bucket : Nat × (List Nat × List Nat))
    (t : TraceState) (h : evalBucket s bucket = Except.ok t) :
    ShrinkA s t bucket.2.2 := by
  simp only [evalBucket] at h
  cases h1 : cuda_jit_assemble s bucket.1 bucket.2.2 with
  | error e => rw [h1] at h; exact absurd h (by simp [except_bind_err])
  | ok r =>
    rw [h1, except_bind_ok] at h
    exact shrinkA_trans (assemble_shrink s bucket.1 bucket.2.2 r.1 r.2 (by rw [h1]))
      (shrinkA_mono (collapseFold_shrink bucket.2.2 r.1 t h) (by simp))

-- -----------------------------------------------------------------------
-- Consequences of ShrinkA for the state predicates
-- -----------------------------------------------------------------------

theorem shrinkA_noDirty {s t : TraceState} {L : List Nat}
    (hs : NoDirty s) (h : ShrinkA s t L) : NoDirty t := by
  intro i
  rw [(h.2.2 i).2.2.2.1]
  exact hs i

theorem shrinkA_active_nil {s t : TraceState} {L : List Nat}
    (hs : s.active = []) (h : ShrinkA s t L) : t.active = [] := by
  rcases ht : t.active with _ | ⟨x, rest⟩
  · rfl
  · have := h.2.1 x (by rw [ht]; exact List.mem_cons_self x rest)
    rw [hs] at this
    simp at this

theorem shrinkA_geom {s t : TraceState} {L : List Nat}
    (h : ShrinkA s t L) : GeomEq s t :=
  ⟨h.1, fun i => ⟨(h.2.2 i).2.1, (h.2.2 i).2.2.1⟩⟩

theorem shrinkA_depWF {s t : TraceState} {L : List Nat}
    (hs : DepWF s) (h : ShrinkA s t L) : DepWF t := by
  intro i
  rw [(h.2.2 i).2.2.2.2.1]
  exact hs i

theorem geomEq_refl (s : TraceState) : GeomEq s s := ⟨rfl, fun _ => ⟨rfl, rfl⟩⟩

theorem geomEq_trans {s t u : TraceState} (h1 : GeomEq s t) (h2 : GeomEq t u) :
    GeomEq s u :=
  ⟨h2.1.trans h1.1, fun i => ⟨(h2.2 i).1.trans (h1.2 i).1,
    (h2.2 i).2.trans (h1.2 i).2⟩⟩

/-- A three-slot dependency list whose slots all read 0 is `[0, 0, 0]`. -/
theorem dep_eq_zero_of (d : List Nat) (hlen : d.length = 3)
    (h0 : d.getD 0 0 = 0) (h1 : d.getD 1 0 = 0) (h2 : d.getD 2 0 = 0) :
    d = [0, 0, 0] := by
  match d, hlen with
  | [a, b, c], _ =>
    simp only [List.getD] at h0 h1 h2
    simp_all

theorem mdx_of_shrinkA {s t : TraceState} {L : List Nat}
    (hmd : MatZero s) (hwf : DepWF s) (h : ShrinkA s t L) : MatZeroX t L := by
  intro i hdata hcmd
  obtain ⟨hc, _, _, _, hlen, hdm, hdep⟩ := h.2.2 i
  rcases hdm hdata with hprev | hmem
  · left
    have hz : (getV s i).dep = [0, 0, 0] := hmd i hprev (hc ▸ hcmd)
    apply dep_eq_zero_of _ (hlen.trans (hwf i))
    all_goals
      rcases hdep 0 with he | he <;> rcases hdep 1 with he1 | he1 <;>
        rcases hdep 2 with he2 | he2 <;>
      simp_all [hz]
  · right
    exact hmem

theorem getD_set_self (d : List Nat) (k : Nat) (h : k < d.length) :
    (d.set k 0).getD k 0 = 0 := by
  simp [List.getD_eq_getElem?_getD, List.getElem?_set, h]

theorem getD_set_other (d : List Nat) (k j : Nat) (h : k ≠ j) :
    (d.set k 0).getD j 0 = d.getD j 0 := by
  simp [List.getD_eq_getElem?_getD, List.getElem?_set, h]

theorem dep_zero_transport {s t : TraceState} {L : List Nat}
    (h : ShrinkA s t L) (i : Nat) (hz : (getV s i).dep = [0, 0, 0]) :
    (getV t i).dep = [0, 0, 0] := by
  have hlen : (getV t i).dep.length = 3 :=
    (h.2.2 i).2.2.2.2.1.trans (by rw [hz]; rfl)
  apply dep_eq_zero_of _ hlen
  · rcases (h.2.2 i).2.2.2.2.2.2 0 with he | he
    · rw [he, hz]; rfl
    · exact he
  · rcases (h.2.2 i).2.2.2.2.2.2 1 with he | he
    · rw [he, hz]; rfl
    · exact he
  · rcases (h.2.2 i).2.2.2.2.2.2 2 with he | he
    · rw [he, hz]; rfl
    · exact he

theorem clearFold_nil (s : TraceState) : clearFold [] s = s := rfl

theorem clearFold_cons (x : Nat) (L : List Nat) (s : TraceState) :
    clearFold (x :: L) s =
      clearFold L (modV s x (fun v => { v with dirty := false })) := rfl

theorem clearFold_active (L : List Nat) :
    ∀ s : TraceState, (clearFold L s).active = s.active := by
  induction L with
  | nil => intro s; rfl
  | cons x L2 ih =>
    intro s
    rw [clearFold_cons, ih, modV_active]

theorem clearFold_length (L : List Nat) :
    ∀ s : TraceState, (clearFold L s).trace.length = s.trace.length := by
  induction L with
  | nil => intro s; rfl
  | cons x L2 ih =>
    intro s
    rw [clearFold_cons, ih, modV_trace_length]

theorem clearFold_getV (L : List Nat) :
    ∀ (s : TraceState) (i : Nat),
      getV (clearFold L s) i = getV s i ∨
      getV (clearFold L s) i = { getV s i with dirty := false } := by
  induction L with
  | nil => intro s i; exact Or.inl rfl
  | cons x L2 ih =>
    intro s i
    rw [clearFold_cons]
    rcases ih (modV s x (fun v => { v with dirty := false })) i with h | h
    · rw [h, getV_modV]
      by_cases hxi : x = i ∧ x < s.trace.length
      · obtain ⟨he, hlt⟩ := hxi
        subst he
        rw [if_pos ⟨rfl, hlt⟩]
        exact Or.inr rfl
      · rw [if_neg hxi]
        exact Or.inl rfl
    · rw [h, getV_modV]
      by_cases hxi : x = i ∧ x < s.trace.length
      · obtain ⟨he, hlt⟩ := hxi
        subst he
        rw [if_pos ⟨rfl, hlt⟩]
        exact Or.inr rfl
      · rw [if_neg hxi]
        exact Or.inr rfl

theorem clearFold_dirty_mem (L : List Nat) :
    ∀ (s : TraceState) (i : Nat),
      (getV (clearFold L s) i).dirty = true →
      (getV s i).dirty = true ∧ i ∉ L := by
  induction L with
  | nil => intro s i h; exact ⟨h, by simp⟩
  | cons x L2 ih =>
    intro s i h
    rw [clearFold_cons] at h
    obtain ⟨hd, hnm⟩ := ih (modV s x (fun v => { v with dirty := false })) i h
    rw [getV_modV] at hd
    by_cases hxi : x = i ∧ x < s.trace.length
    · rw [if_pos hxi] at hd
      simp at hd
    · rw [if_neg hxi] at hd
      have hne : i ≠ x := by
        intro he
        subst he
        apply hxi
        refine ⟨rfl, ?_⟩
        by_contra hb
        rw [getV_oob s i (Nat.le_of_not_lt hb)] at hd
        simp [default_variable] at hd
      exact ⟨hd, by simp [hne, hnm]⟩

/-- Processing a materialised computed node in the edge-collapse loop leaves
    its three dependency slots zeroed, whatever the cascading decrements did
    in between. -/
theorem collapseStep_zeroes (s : TraceState) (idx : Nat) (t : TraceState)
    (hwf : DepWF s)
    (h : collapseStep s idx = Except.ok t)
    (hdata : (getV s idx).data = true) (hcmd : (getV s idx).cmd ≠ "") :
    (getV t idx).dep = [0, 0, 0] := by
  have hidx : idx < s.trace.length := by
    by_contra hb
    rw [getV_oob s idx (Nat.le_of_not_lt hb)] at hdata
    simp [default_variable] at hdata
  simp only [collapseStep] at h
  rw [if_pos (by simp [hdata, hcmd] : ((getV s idx).data &&
    (getV s idx).cmd != "") = true)] at h
  cases h1 : cuda_dec_ref_int_f (evalFuel s) s ((getV s idx).dep.getD 0 0) with
  | error e => rw [h1] at h; exact absurd h (by simp [except_bind_err])
  | ok a =>
    rw [h1, except_bind_ok] at h
    have hsha := (decInt_varFree_shrink _).1 _ _ _ h1
    have hla : a.trace.length = s.trace.length := hsha.1
    have hdla : (getV a idx).dep.length = 3 :=
      (hsha.2.2 idx).2.2.2.2.1.trans (hwf idx)
    set b := modV a idx (fun v2 => { v2 with dep := v2.dep.set 0 0 }) with hb
    have hgb : getV b idx = { getV a idx with dep := (getV a idx).dep.set 0 0 } := by
      rw [hb, getV_modV, if_pos ⟨rfl, by omega⟩]
    cases h2 : cuda_dec_ref_int_f (evalFuel b) b ((getV b idx).dep.getD 1 0) with
    | error e => rw [h2] at h; exact absurd h (by simp [except_bind_err])
    | ok c =>
      rw [h2, except_bind_ok] at h
      have hshc := (decInt_varFree_shrink _).1 _ _ _ h2
      have hlc : c.trace.length = s.trace.length := by
        rw [hshc.1, hb, modV_trace_length, hla]
      have hdlb : (getV b idx).dep.length = 3 := by
        rw [hgb]
        simpa using hdla
      have hdlc : (getV c idx).dep.length = 3 :=
        (hshc.2.2 idx).2.2.2.2.1.trans hdlb
      have hc0 : (getV c idx).dep.getD 0 0 = 0 := by
        rcases (hshc.2.2 idx).2.2.2.2.2.2 0 with he | he
        · rw [he, hgb]
          exact getD_set_self _ 0 (by omega)
        · exact he
      set d := modV c idx (fun v2 => { v2 with dep := v2.dep.set 1 0 }) with hd
      have hgd : getV d idx = { getV c idx with dep := (getV c idx).dep.set 1 0 } := by
        rw [hd, getV_modV, if_pos ⟨rfl, by omega⟩]
      cases h3 : cuda_dec_ref_int_f (evalFuel d) d ((getV d idx).dep.getD 2 0) with
      | error e => rw [h3] at h; exact absurd h (by simp [except_bind_err])
      | ok e =>
        rw [h3, except_bind_ok, except_pure] at h
        have hshe := (decInt_varFree_shrink _).1 _ _ _ h3
        have hle : e.trace.length = s.trace.length := by
          rw [hshe.1, hd, modV_trace_length, hlc]
        have hdld : (getV d idx).dep.length = 3 := by
          rw [hgd]
          simpa using hdlc
        have hdle : (getV e idx).dep.length = 3 :=
          (hshe.2.2 idx).2.2.2.2.1.trans hdld
        have he0 : (getV e idx).dep.getD 0 0 = 0 := by
          rcases (hshe.2.2 idx).2.2.2.2.2.2 0 with hq | hq
          · rw [hq, hgd]
            rw [show ((getV c idx).dep.set 1 0).getD 0 0 =
              (getV c idx).dep.getD 0 0 from getD_set_other _ 1 0 (by omega)]
            exact hc0
          · exact hq
        have he1 : (getV e idx).dep.getD 1 0 = 0 := by
          rcases (hshe.2.2 idx).2.2.2.2.2.2 1 with hq | hq
          · rw [hq, hgd]
            exact getD_set_self _ 1 (by omega)
          · exact hq
        have hgt : getV t idx = { getV e idx with
            dep := (getV e idx).dep.set 2 0 } := by
          rw [← Except.ok.inj h, getV_modV, if_pos ⟨rfl, by omega⟩]
        rw [hgt]
        apply dep_eq_zero_of
        · simpa using hdle
        · show ((getV e idx).dep.set 2 0).getD 0 0 = 0
          rw [getD_set_other _ 2 0 (by omega)]
          exact he0
        · show ((getV e idx).dep.set 2 0).getD 1 0 = 0
          rw [getD_set_other _ 2 1 (by omega)]
          exact he1
        · exact getD_set_self _ 2 (by omega)

/-- Collapsing the edges of a schedule restores `MatZero`: every node excused
    because it is still scheduled gets its dependency slots zeroed when its
    own turn comes. -/
theorem collapseFold_mdx : ∀ (l : List Nat) (s : TraceState),
    DepWF s → MatZeroX s l →
    ∀ t, l.foldlM collapseStep s = Except.ok t → MatZero t := by
  intro l
  induction l with
  | nil =>
    intro s _ hmd t h
    simp only [List.foldlM_nil] at h
    rw [except_pure] at h
    rw [← Except.ok.inj h]
    intro i hdata hcmd
    rcases hmd i hdata hcmd with hz | hmem
    · exact hz
    · simp at hmem
  | cons x l2 ih =>
    intro s hwf hmd t h
    simp only [List.foldlM_cons] at h
    cases h1 : collapseStep s x with
    | error e => rw [h1] at h; exact absurd h (by simp [except_bind_err])
    | ok s1 =>
      rw [h1, except_bind_ok] at h
      have hsh := collapseStep_shrink s x s1 h1
      refine ih s1 (shrinkA_depWF hwf hsh) ?_ t h
      intro i hdata hcmd
      have hdata0 : (getV s i).data = true := by
        rcases (hsh.2.2 i).2.2.2.2.2.1 hdata with hq | hq
        · exact hq
        · simp at hq
      have hcmd0 : (getV s i).cmd ≠ "" := by
        rw [← (hsh.2.2 i).1]
        exact hcmd
      by_cases hix : i = x
      · subst hix
        left
        exact collapseStep_zeroes s i s1 hwf h1 hdata0 hcmd0
      · rcases hmd i hdata0 hcmd0 with hz | hmem
        · left
          exact dep_zero_transport hsh i hz
        · right
          rcases List.mem_cons.mp hmem with hq | hq
          · exact absurd hq hix
          · exact hq

theorem evalBucket_mat (s : TraceState) (bucket : Nat × (List Nat × List Nat))
    (t : TraceState) (hwf : DepWF s) (hmd : MatZero s)
    (h : evalBucket s bucket = Except.ok t) : MatZero t ∧ DepWF t := by
  simp only [evalBucket] at h
  cases h1 : cuda_jit_assemble s bucket.1 bucket.2.2 with
  | error e => rw [h1] at h; exact absurd h (by simp [except_bind_err])
  | ok r =>
    rw [h1, except_bind_ok] at h
    have hsh : ShrinkA s r.1 bucket.2.2 :=
      assemble_shrink s bucket.1 bucket.2.2 r.1 r.2 (by rw [h1])
    refine ⟨collapseFold_mdx bucket.2.2 r.1 (shrinkA_depWF hwf hsh)
      (mdx_of_shrinkA hmd hwf hsh) t h, ?_⟩
    exact shrinkA_depWF (shrinkA_depWF hwf hsh) (collapseFold_shrink bucket.2.2 r.1 t h)

theorem bucketsFold_facts : ∀ (bl : List (Nat × (List Nat × List Nat)))
    (s t : TraceState), bl.foldlM evalBucket s = Except.ok t →
    (NoDirty s → NoDirty t) ∧ (s.active = [] → t.active = []) ∧
    (DepWF s → MatZero s → (MatZero t ∧ DepWF t)) ∧ GeomEq s t := by
  intro bl
  induction bl with
  | nil =>
    intro s t h
    simp only [List.foldlM_nil] at h
    rw [except_pure] at h
    rw [← Except.ok.inj h]
    exact ⟨id, id, fun hwf hmd => ⟨hmd, hwf⟩, geomEq_refl s⟩
  | cons bkt bl2 ih =>
    intro s t h
    simp only [List.foldlM_cons] at h
    cases h1 : evalBucket s bkt with
    | error e => rw [h1] at h; exact absurd h (by simp [except_bind_err])
    | ok s1 =>
      rw [h1, except_bind_ok] at h
      have hsh := evalBucket_shrink s bkt s1 h1
      obtain ⟨ihd, iha, ihm, ihg⟩ := ih s1 t h
      refine ⟨fun hnd => ihd (shrinkA_noDirty hnd hsh),
        fun ha => iha (shrinkA_active_nil ha hsh),
        fun hwf hmd => ?_, geomEq_trans (shrinkA_geom hsh) ihg⟩
      obtain ⟨hmd1, hwf1⟩ := evalBucket_mat s bkt s1 hwf hmd h1
      exact ihm hwf1 hmd1

theorem eval_unfold (s : TraceState) :
    cuda_eval s = (buildSweeps s).foldlM evalBucket
      { clearFold s.dirtyQ s with active := [], dirtyQ := [] } := rfl

theorem eval_pre_getV (s : TraceState) (i : Nat) :
    getV { clearFold s.dirtyQ s with active := [], dirtyQ := [] } i =
      getV (clearFold s.dirtyQ s) i := rfl

theorem eval_pre_noDirty (s : TraceState) (hq : DirtyQueued s) :
    NoDirty { clearFold s.dirtyQ s with active := [], dirtyQ := [] } := by
  intro i
  rw [eval_pre_getV]
  by_contra hb
  obtain ⟨hd, hnm⟩ :=
    clearFold_dirty_mem s.dirtyQ s i (Bool.not_eq_false _ ▸ hb)
  exact hnm (hq i hd)

theorem eval_pre_depWF (s : TraceState) (hwf : DepWF s) :
    DepWF { clearFold s.dirtyQ s with active := [], dirtyQ := [] } := by
  intro i
  rw [eval_pre_getV]
  rcases clearFold_getV s.dirtyQ s i with h | h <;> rw [h] <;> exact hwf i

theorem eval_pre_matZero (s : TraceState) (hmd : MatZero s) :
    MatZero { clearFold s.dirtyQ s with active := [], dirtyQ := [] } := by
  intro i
  rw [eval_pre_getV]
  rcases clearFold_getV s.dirtyQ s i with h | h <;> rw [h] <;> exact hmd i

theorem eval_pre_geom (s : TraceState) :
    GeomEq s { clearFold s.dirtyQ s with active := [], dirtyQ := [] } := by
  refine ⟨clearFold_length s.dirtyQ s, fun i => ?_⟩
  rw [eval_pre_getV]
  rcases clearFold_getV s.dirtyQ s i with h | h <;> rw [h] <;> exact ⟨rfl, rfl⟩

/-- After a successful `cuda_eval` on a state whose dirty flags are all
    queued, no node is dirty and the active set is empty. -/
theorem eval_ok_clean (s t : TraceState) (hq : DirtyQueued s)
    (h : cuda_eval s = Except.ok t) : NoDirty t ∧ t.active = [] := by
  rw [eval_unfold] at h
  obtain ⟨hd, ha, _, _⟩ := bucketsFold_facts (buildSweeps s) _ t h
  exact ⟨hd (eval_pre_noDirty s hq), ha rfl⟩

/-- A successful `cuda_eval` preserves the materialised-node invariant. -/
theorem eval_ok_mat (s t : TraceState) (hwf : DepWF s) (hmd : MatZero s)
    (h : cuda_eval s = Except.ok t) : MatZero t ∧ DepWF t := by
  rw [eval_unfold] at h
  obtain ⟨_, _, hm, _⟩ := bucketsFold_facts (buildSweeps s) _ t h
  exact hm (eval_pre_depWF s hwf) (eval_pre_matZero s hmd)

/-- A successful `cuda_eval` changes neither the trace length nor any node's
    element count or subtree size. -/
theorem eval_ok_geom (s t : TraceState) (h : cuda_eval s = Except.ok t) :
    GeomEq s t := by
  rw [eval_unfold] at h
  obtain ⟨_, _, _, hg⟩ := bucketsFold_facts (buildSweeps s) _ t h
  exact geomEq_trans (eval_pre_geom s) hg

-- -----------------------------------------------------------------------
-- Field-preservation lemmas for the append path
-- -----------------------------------------------------------------------

theorem getV_activeInsert (s : TraceState) (i j : Nat) :
    getV (activeInsert s i) j = getV s j := by
  unfold activeInsert
  split <;> rfl

theorem getV_append (s : TraceState) (v : Variable) (j : Nat) :
    getV { s with trace := s.trace ++ [v] } j =
      if j = s.trace.length then v else getV s j := by
  simp only [getV, getVL, List.getD_eq_getElem?_getD, List.getElem?_append]
  by_cases hj : j < s.trace.length
  · rw [if_pos hj, if_neg (by omega)]
  · rw [if_neg hj]
    by_cases he : j = s.trace.length
    · subst he
      simp
    · rw [if_neg he]
      have h1 : s.trace.length ≤ j := Nat.le_of_not_lt hj
      have h2 : 1 ≤ j - s.trace.length := by omega
      rw [List.getElem?_eq_none (by simpa using h2),
        List.getElem?_eq_none h1]

theorem getV_modV_fields (s : TraceState) (a : Nat) (f : Variable → Variable)
    (i : Nat)
    (hf : ∀ v, (f v).cmd = v.cmd ∧ (f v).size = v.size ∧
      (f v).subtree_size = v.subtree_size ∧ (f v).dep = v.dep ∧
      (f v).dirty = v.dirty ∧ (f v).data = v.data) :
    (getV (modV s a f) i).cmd = (getV s i).cmd ∧
    (getV (modV s a f) i).size = (getV s i).size ∧
    (getV (modV s a f) i).subtree_size = (getV s i).subtree_size ∧
    (getV (modV s a f) i).dep = (getV s i).dep ∧
    (getV (modV s a f) i).dirty = (getV s i).dirty ∧
    (getV (modV s a f) i).data = (getV s i).data := by
  rw [getV_modV]
  by_cases hc : a = i ∧ a < s.trace.length
  · obtain ⟨he, hlt⟩ := hc
    subst he
    rw [if_pos ⟨rfl, hlt⟩]
    exact hf (getV s a)
  · rw [if_neg hc]
    exact ⟨rfl, rfl, rfl, rfl, rfl, rfl⟩

theorem inc_ext_fields (s : TraceState) (a i : Nat) :
    (getV (cuda_inc_ref_ext s a) i).cmd = (getV s i).cmd ∧
    (getV (cuda_inc_ref_ext s a) i).size = (getV s i).size ∧
    (getV (cuda_inc_ref_ext s a) i).subtree_size = (getV s i).subtree_size ∧
    (getV (cuda_inc_ref_ext s a) i).dep = (getV s i).dep ∧
    (getV (cuda_inc_ref_ext s a) i).dirty = (getV s i).dirty ∧
    (getV (cuda_inc_ref_ext s a) i).data = (getV s i).data := by
  unfold cuda_inc_ref_ext
  split
  · exact ⟨rfl, rfl, rfl, rfl, rfl, rfl⟩
  · exact getV_modV_fields s a _ i (fun v => ⟨rfl, rfl, rfl, rfl, rfl, rfl⟩)

theorem inc_int_fields (s : TraceState) (a i : Nat) :
    (getV (cuda_inc_ref_int s a) i).cmd = (getV s i).cmd ∧
    (getV (cuda_inc_ref_int s a) i).size = (getV s i).size ∧
    (getV (cuda_inc_ref_int s a) i).subtree_size = (getV s i).subtree_size ∧
    (getV (cuda_inc_ref_int s a) i).dep = (getV s i).dep ∧
    (getV (cuda_inc_ref_int s a) i).dirty = (getV s i).dirty ∧
    (getV (cuda_inc_ref_int s a) i).data = (getV s i).data := by
  unfold cuda_inc_ref_int
  split
  · exact ⟨rfl, rfl, rfl, rfl, rfl, rfl⟩
  · exact getV_modV_fields s a _ i (fun v => ⟨rfl, rfl, rfl, rfl, rfl, rfl⟩)

theorem foldInc_fields (args : List Nat) : ∀ (s : TraceState) (i : Nat),
    (getV (args.foldl cuda_inc_ref_int s) i).cmd = (getV s i).cmd ∧
    (getV (args.foldl cuda_inc_ref_int s) i).size = (getV s i).size ∧
    (getV (args.foldl cuda_inc_ref_int s) i).subtree_size =
      (getV s i).subtree_size ∧
    (getV (args.foldl cuda_inc_ref_int s) i).dep = (getV s i).dep ∧
    (getV (args.foldl cuda_inc_ref_int s) i).dirty = (getV s i).dirty ∧
    (getV (args.foldl cuda_inc_ref_int s) i).data = (getV s i).data := by
  induction args with
  | nil => intro s i; exact ⟨rfl, rfl, rfl, rfl, rfl, rfl⟩
  | cons a args2 ih =>
    intro s i
    simp only [List.foldl_cons]
    obtain ⟨c1, z1, b1, d1, e1, f1⟩ := ih (cuda_inc_ref_int s a) i
    obtain ⟨c2, z2, b2, d2, e2, f2⟩ := inc_int_fields s a i
    exact ⟨c1.trans c2, z1.trans z2, b1.trans b2, d1.trans d2, e1.trans e2,
      f1.trans f2⟩

theorem incChain_fields (s0 : TraceState) (args : List Nat) (k j : Nat) :
    (getV (activeInsert (cuda_inc_ref_ext (args.foldl cuda_inc_ref_int s0) k) k) j).cmd =
      (getV s0 j).cmd ∧
    (getV (activeInsert (cuda_inc_ref_ext (args.foldl cuda_inc_ref_int s0) k) k) j).size =
      (getV s0 j).size ∧
    (getV (activeInsert (cuda_inc_ref_ext (args.foldl cuda_inc_ref_int s0) k) k) j).subtree_size =
      (getV s0 j).subtree_size ∧
    (getV (activeInsert (cuda_inc_ref_ext (args.foldl cuda_inc_ref_int s0) k) k) j).dep =
      (getV s0 j).dep ∧
    (getV (activeInsert (cuda_inc_ref_ext (args.foldl cuda_inc_ref_int s0) k) k) j).dirty =
      (getV s0 j).dirty ∧
    (getV (activeInsert (cuda_inc_ref_ext (args.foldl cuda_inc_ref_int s0) k) k) j).data =
      (getV s0 j).data := by
  rw [getV_activeInsert]
  obtain ⟨c2, z2, b2, d2, e2, f2⟩ := inc_ext_fields (args.foldl cuda_inc_ref_int s0) k j
  obtain ⟨c3, z3, b3, d3, e3, f3⟩ := foldInc_fields args s0 j
  exact ⟨c2.trans c3, z2.trans z3, b2.trans b3, d2.trans d3, e2.trans e3,
    f2.trans f3⟩

theorem appendNode_spec (s : TraceState) (ty : EnokiType) (cmd : String)
    (size : Nat) (dep : List Nat) (subtree : Nat) (args : List Nat) :
    (appendNode s ty cmd size dep subtree args).1 = s.trace.length ∧
    (getV (appendNode s ty cmd size dep subtree args).2 s.trace.length).size =
      size ∧
    (getV (appendNode s ty cmd size dep subtree args).2
      s.trace.length).subtree_size = subtree ∧
    (getV (appendNode s ty cmd size dep subtree args).2 s.trace.length).dep =
      dep ∧
    (getV (appendNode s ty cmd size dep subtree args).2
      s.trace.length).dirty = false := by
  unfold appendNode
  refine ⟨rfl, ?_, ?_, ?_, ?_⟩
  · rw [(incChain_fields _ args s.trace.length s.trace.length).2.1,
      getV_append, if_pos rfl]
  · rw [(incChain_fields _ args s.trace.length s.trace.length).2.2.1,
      getV_append, if_pos rfl]
  · rw [(incChain_fields _ args s.trace.length s.trace.length).2.2.2.1,
      getV_append, if_pos rfl]
  · rw [(incChain_fields _ args s.trace.length s.trace.length).2.2.2.2.1,
      getV_append, if_pos rfl]

theorem appendNode_getV_old (s : TraceState) (ty : EnokiType) (cmd : String)
    (size : Nat) (dep : List Nat) (subtree : Nat) (args : List Nat) (j : Nat)
    (hj : j ≠ s.trace.length) :
    (getV (appendNode s ty cmd size dep subtree args).2 j).cmd =
      (getV s j).cmd ∧
    (getV (appendNode s ty cmd size dep subtree args).2 j).size =
      (getV s j).size ∧
    (getV (appendNode s ty cmd size dep subtree args).2 j).subtree_size =
      (getV s j).subtree_size ∧
    (getV (appendNode s ty cmd size dep subtree args).2 j).dep =
      (getV s j).dep ∧
    (getV (appendNode s ty cmd size dep subtree args).2 j).dirty =
      (getV s j).dirty ∧
    (getV (appendNode s ty cmd size dep subtree args).2 j).data =
      (getV s j).data := by
  unfold appendNode
  have hch := incChain_fields
    { s with trace := s.trace ++
        [{ type := ty, cmd := cmd, size := size, dep := dep,
           subtree_size := subtree }] } args s.trace.length j
  obtain ⟨c2, z2, b2, d2, e2, f2⟩ := hch
  rw [c2, z2, b2, d2, e2, f2, getV_append, if_neg hj]
  exact ⟨rfl, rfl, rfl, rfl, rfl, rfl⟩

theorem appendNode_noDirty (s : TraceState) (ty : EnokiType) (cmd : String)
    (size : Nat) (dep : List Nat) (subtree : Nat) (args : List Nat)
    (hnd : NoDirty s) :
    NoDirty (appendNode s ty cmd size dep subtree args).2 := by
  intro j
  by_cases hj : j = s.trace.length
  · subst hj
    exact (appendNode_spec s ty cmd size dep subtree args).2.2.2.2
  · rw [(appendNode_getV_old s ty cmd size dep subtree args j hj).2.2.2.2.1]
    exact hnd j

-- -----------------------------------------------------------------------
-- C1
-- -----------------------------------------------------------------------

/-- C1 counterexample: node 11 of `c1marked` is marked side-effect and holds
    one external reference.  Decrementing that last external reference
    removes it from the active set — `cuda_dec_ref_ext` has no `side_effect`
    check — and even collects it, so the schedule of a subsequent
    `evaluate()` does not contain node 11: the node is not pinned
    "regardless of its external reference count". -/
theorem c1_counterexample :
    (getV c1marked 11).side_effect = true ∧
    11 ∈ c1marked.active ∧
    (getV c1marked 11).ref_count_ext = 1 ∧
    cuda_dec_ref_ext c1marked 11 = Except.ok c1dropped ∧
    (getV c1dropped 11).side_effect = true ∧
    11 ∉ c1dropped.active ∧
    scheduleOf c1dropped = [(1, [10])] ∧
    (getV c1dropped 11).is_collected = true := by decide

/-- C1 (amended): a node marked side-effect stays in the active set only
    while its external reference count is positive.  Decrementing its last
    external reference evicts it from the active set despite the side-effect
    flag; `evaluate()` then only reaches it through a consumer, if any (in
    the counterexample it is not scheduled at all).  The intended protocol is
    that the caller retains the external reference created by the append, and
    the scheduler releases it upon emission. -/
theorem c1_side_effect_not_pinned (s t : TraceState) (i : Nat)
    (hR : ENOKI_CUDA_REG_RESERVED ≤ i)
    (hside : (getV s i).side_effect = true)
    (hext : (getV s i).ref_count_ext = 1)
    (hok : cuda_dec_ref_ext s i = Except.ok t) :
    i ∉ t.active := by
  have hlt : ¬ i < ENOKI_CUDA_REG_RESERVED := Nat.not_lt.mpr hR
  have hlen : i < s.trace.length := by
    by_contra hb
    rw [getV_oob s i (Nat.le_of_not_lt hb)] at hext
    simp [default_variable] at hext
  have hne : s.trace.isEmpty = false := by
    cases htr : s.trace with
    | nil => rw [htr] at hlen; simp at hlen
    | cons a t2 => rfl
  simp only [cuda_dec_ref_ext] at hok
  rw [if_neg (by simp [hlt, hne])] at hok
  rw [if_pos hlen] at hok
  rw [if_neg (by simp [hext])] at hok
  set s1 := modV s i (fun v => { v with ref_count_ext := v.ref_count_ext - 1 })
    with hs1
  have hg1 : (getV s1 i).ref_count_ext = 0 := by
    rw [hs1, getV_modV, if_pos ⟨rfl, hlen⟩]
    simp [hext]
  have hcond : ((getV s1 i).ref_count_ext == 0) = true := by simp [hg1]
  rw [hcond, if_pos (rfl : (true : Bool) = true)] at hok
  split at hok
  · have hsub :=
      ((decInt_varFree_shrink (evalFuel (activeErase s1 i))).2 _ i t hok).2.1
    intro hmem
    have := hsub i hmem
    rw [mem_activeErase] at this
    exact this.2 rfl
  · intro hmem
    have ht : activeErase s1 i = t := Except.ok.inj hok
    rw [← ht] at hmem
    exact ((mem_activeErase s1 i i).mp hmem).2 rfl

/-- C1 witness: the amended theorem applied to node 11 of `c1marked`. -/
theorem c1_witness :
    (ENOKI_CUDA_REG_RESERVED ≤ 11 ∧ (getV c1marked 11).side_effect = true ∧
     (getV c1marked 11).ref_count_ext = 1 ∧
     cuda_dec_ref_ext c1marked 11 = Except.ok c1dropped) ∧
    11 ∉ c1dropped.active :=
  ⟨⟨by decide, by decide, by decide, by decide⟩,
   c1_side_effect_not_pinned c1marked c1dropped 11 (by decide) (by decide)
     (by decide) (by decide)⟩

-- -----------------------------------------------------------------------
-- C6
-- -----------------------------------------------------------------------

/-- C6 counterexample: node 10 of `c6pre` is a scheduled computed node (it is
    in the bucket schedule and its template is non-empty) but its external
    reference count is zero at assembly time, so no output buffer is
    allocated for it: after `evaluate()` its device pointer is still null,
    refuting "every scheduled computed node has a non-null device pointer".
    (The other parts of the claim hold here: the active set is empty, no
    node is dirty, and the materialised node 11 has its slots zeroed.) -/
theorem c6_counterexample :
    scheduleOf c6pre = [(1, [10, 11])] ∧
    (getV c6pre 10).cmd ≠ "" ∧
    cuda_eval c6pre = Except.ok c6post ∧
    (getV c6post 10).cmd ≠ "" ∧
    (getV c6post 10).data = false ∧
    (getV c6post 11).data = true ∧
    (getV c6post 11).dep = [0, 0, 0] ∧
    c6post.active = [] ∧
    noDirtyB c6post = true := by decide

/-- C6 (amended): after a successful `evaluate()` on a state satisfying the
    reachable-state invariants (dirty flags queued, three dependency slots
    per node, materialised computed nodes have zeroed slots), the active set
    is empty, no node is dirty, and every computed node that is materialised
    (`data ≠ null`, non-empty template) has all three dependency slots
    zeroed.  A scheduled computed node whose external reference count is
    zero at emission (for example after the scheduler releases a side-effect
    node's reference, or an interior node whose handle was dropped) gets no
    output buffer and keeps a null device pointer, as the counterexample
    shows. -/
theorem c6_post_eval_invariants (s t : TraceState)
    (h1 : dirtyQueuedB s = true) (h2 : depLen3B s = true)
    (h3 : matDepsB s = true) (hok : cuda_eval s = Except.ok t) :
    t.active = [] ∧ noDirtyB t = true ∧ matDepsB t = true := by
  obtain ⟨hnd, hact⟩ := eval_ok_clean s t ((dirtyQueuedB_iff s).mp h1) hok
  obtain ⟨hmz, _⟩ :=
    eval_ok_mat s t ((depLen3B_iff s).mp h2) ((matDepsB_iff s).mp h3) hok
  exact ⟨hact, (noDirtyB_iff t).mpr hnd, (matDepsB_iff t).mpr hmz⟩

/-- C6 witness: the amended theorem applied to the evaluation of `c6pre`. -/
theorem c6_witness :
    (dirtyQueuedB c6pre = true ∧ depLen3B c6pre = true ∧
     matDepsB c6pre = true ∧ cuda_eval c6pre = Except.ok c6post) ∧
    (c6post.active = [] ∧ noDirtyB c6post = true ∧ matDepsB c6post = true) :=
  ⟨⟨by decide, by decide, by decide, by decide⟩,
   c6_post_eval_invariants c6pre c6post (by decide) (by decide) (by decide)
     (by decide)⟩

-- -----------------------------------------------------------------------
-- C7
-- -----------------------------------------------------------------------

theorem append_pair_spec (s2 : TraceState) (ty : EnokiType) (cmd : String)
    (size : Nat) (dep : List Nat) (subtree : Nat) (args : List Nat)
    (i : Nat) (t : TraceState)
    (h : appendNode s2 ty cmd size dep subtree args = (i, t)) :
    (getV t i).size = size ∧ (getV t i).subtree_size = subtree ∧
    (getV t i).dep = dep ∧ (getV t i).dirty = false := by
  have h1 : (appendNode s2 ty cmd size dep subtree args).1 = i := by rw [h]
  have h2 : (appendNode s2 ty cmd size dep subtree args).2 = t := by rw [h]
  have hspec := appendNode_spec s2 ty cmd size dep subtree args
  rw [← h1, ← h2, hspec.1]
  exact ⟨hspec.2.1, hspec.2.2.1, hspec.2.2.2.1, hspec.2.2.2.2⟩

/-- C7 counterexample: `subtree_size` is `uint32_t` in the source, and the
    sum wraps on reachable inputs.  After 31 doubling appends the chain head
    (node 41) stores subtree size `2^32 - 1`; appending one more consumer of
    it twice stores `(2^32 - 1 + 2^32 - 1 + 1) mod 2^32 = 2^32 - 1`, not the
    claimed exact sum `2^33 - 1`. -/
theorem c7_counterexample :
    (getV (c7chain 31) 41).subtree_size = 4294967295 ∧
    cuda_trace_append2 (c7chain 31) EnokiType.UInt32 "add.u32 $r1, $r2, $r3"
      41 41 = Except.ok (42, c7chain 32) ∧
    (getV (c7chain 32) 42).subtree_size = 4294967295 ∧
    (getV (c7chain 32) 42).subtree_size ≠
      (getV (c7chain 31) 41).subtree_size +
        (getV (c7chain 31) 41).subtree_size + 1 := by decide

/-- C7 (amended): for every append with 0-3 valid operands, the resulting
    node's `subtree_size` is 1 plus the sum of the operands' subtree sizes
    reduced modulo `2^32` (the field is `uint32_t` and the sum wraps, see the
    counterexample), and its element count is the maximum of the operands'
    element counts (1 for the 0-operand form).  The operand fields are read
    in the pre-call state: a read-after-write barrier evaluation changes
    neither element counts nor subtree sizes. -/
theorem c7_append_subtree_and_size (s : TraceState) (ty : EnokiType)
    (cmd : String) (a1 a2 a3 : Nat) :
    ((getV (cuda_trace_append0 s ty cmd).2
        (cuda_trace_append0 s ty cmd).1).subtree_size = 1 ∧
     (getV (cuda_trace_append0 s ty cmd).2
        (cuda_trace_append0 s ty cmd).1).size = 1) ∧
    (∀ i t, cuda_trace_append1 s ty cmd a1 = Except.ok (i, t) →
      (getV t i).subtree_size = ((getV s a1).subtree_size + 1) % U32 ∧
      (getV t i).size = (getV s a1).size) ∧
    (∀ i t, cuda_trace_append2 s ty cmd a1 a2 = Except.ok (i, t) →
      (getV t i).subtree_size =
        ((getV s a1).subtree_size + (getV s a2).subtree_size + 1) % U32 ∧
      (getV t i).size = max (getV s a1).size (getV s a2).size) ∧
    (∀ i t, cuda_trace_append3 s ty cmd a1 a2 a3 = Except.ok (i, t) →
      (getV t i).subtree_size = ((getV s a1).subtree_size +
        (getV s a2).subtree_size + (getV s a3).subtree_size + 1) % U32 ∧
      (getV t i).size =
        max (max (getV s a1).size (getV s a2).size) (getV s a3).size) := by
  refine ⟨?_, ?_, ?_, ?_⟩
  · unfold cuda_trace_append0
    constructor
    · rw [getV_activeInsert,
        (inc_ext_fields _ s.trace.length s.trace.length).2.2.1,
        getV_append, if_pos rfl]
    · rw [getV_activeInsert,
        (inc_ext_fields _ s.trace.length s.trace.length).2.1,
        getV_append, if_pos rfl]
  · intro i t hok
    simp only [cuda_trace_append1] at hok
    split at hok
    · exact absurd hok (by simp)
    · split at hok
      · cases he : cuda_eval s with
        | error e => rw [he] at hok; exact absurd hok (by simp [except_bind_err])
        | ok s2 =>
          rw [he, except_bind_ok, except_pure] at hok
          have hs := append_pair_spec _ _ _ _ _ _ _ _ _ (Except.ok.inj hok)
          have hg := eval_ok_geom s s2 he
          rw [hs.1, hs.2.1, (hg.2 a1).1, (hg.2 a1).2]
          exact ⟨rfl, rfl⟩
      · rw [except_pure] at hok
        have hs := append_pair_spec _ _ _ _ _ _ _ _ _ (Except.ok.inj hok)
        exact ⟨hs.2.1, hs.1⟩
  · intro i t hok
    simp only [cuda_trace_append2] at hok
    split at hok
    · exact absurd hok (by simp)
    · split at hok
      · cases he : cuda_eval s with
        | error e => rw [he] at hok; exact absurd hok (by simp [except_bind_err])
        | ok s2 =>
          rw [he, except_bind_ok, except_pure] at hok
          have hs := append_pair_spec _ _ _ _ _ _ _ _ _ (Except.ok.inj hok)
          have hg := eval_ok_geom s s2 he
          rw [hs.1, hs.2.1, (hg.2 a1).1, (hg.2 a1).2, (hg.2 a2).1, (hg.2 a2).2]
          exact ⟨rfl, rfl⟩
      · rw [except_pure] at hok
        have hs := append_pair_spec _ _ _ _ _ _ _ _ _ (Except.ok.inj hok)
        exact ⟨hs.2.1, hs.1⟩
  · intro i t hok
    simp only [cuda_trace_append3] at hok
    split at hok
    · exact absurd hok (by simp)
    · split at hok
      · cases he : cuda_eval s with
        | error e => rw [he] at hok; exact absurd hok (by simp [except_bind_err])
        | ok s2 =>
          rw [he, except_bind_ok, except_pure] at hok
          have hs := append_pair_spec _ _ _ _ _ _ _ _ _ (Except.ok.inj hok)
          have hg := eval_ok_geom s s2 he
          rw [hs.1, hs.2.1, (hg.2 a1).1, (hg.2 a1).2, (hg.2 a2).1, (hg.2 a2).2,
            (hg.2 a3).1, (hg.2 a3).2]
          exact ⟨rfl, rfl⟩
      · rw [except_pure] at hok
        have hs := append_pair_spec _ _ _ _ _ _ _ _ _ (Except.ok.inj hok)
        exact ⟨hs.2.1, hs.1⟩

/-- C7 witness: the theorem applied to a 2-operand append on `c3sub5`. -/
theorem c7_witness :
    (cuda_trace_append2 c3sub5 EnokiType.UInt32 "mad.lo.u32 $r1, $r2, $r3, $r4"
        13 18 = Except.ok (19, okPairState (cuda_trace_append2 c3sub5
        EnokiType.UInt32 "mad.lo.u32 $r1, $r2, $r3, $r4" 13 18))) ∧
    ((getV (okPairState (cuda_trace_append2 c3sub5 EnokiType.UInt32
        "mad.lo.u32 $r1, $r2, $r3, $r4" 13 18)) 19).subtree_size =
      ((getV c3sub5 13).subtree_size + (getV c3sub5 18).subtree_size + 1) % U32 ∧
     (getV (okPairState (cuda_trace_append2 c3sub5 EnokiType.UInt32
        "mad.lo.u32 $r1, $r2, $r3, $r4" 13 18)) 19).size =
      max (getV c3sub5 13).size (getV c3sub5 18).size) :=
  ⟨by decide,
   (c7_append_subtree_and_size c3sub5 EnokiType.UInt32
      "mad.lo.u32 $r1, $r2, $r3, $r4" 13 18 0).2.2.1 19 _ (by decide)⟩

-- -----------------------------------------------------------------------
-- C8
-- -----------------------------------------------------------------------

theorem append_pair_dirty_old (s2 : TraceState) (ty : EnokiType) (cmd : String)
    (size : Nat) (dep : List Nat) (subtree : Nat) (args : List Nat)
    (i : Nat) (t : TraceState) (a : Nat) (ha : a ≠ s2.trace.length)
    (h : appendNode s2 ty cmd size dep subtree args = (i, t)) :
    (getV t a).dirty = (getV s2 a).dirty := by
  have h2 : (appendNode s2 ty cmd size dep subtree args).2 = t := by rw [h]
  rw [← h2]
  exact (appendNode_getV_old s2 ty cmd size dep subtree args a ha).2.2.2.2.1

theorem append_pair_noDirty (s2 : TraceState) (ty : EnokiType) (cmd : String)
    (size : Nat) (dep : List Nat) (subtree : Nat) (args : List Nat)
    (i : Nat) (t : TraceState) (hnd : NoDirty s2)
    (h : appendNode s2 ty cmd size dep subtree args = (i, t)) : NoDirty t := by
  have h2 : (appendNode s2 ty cmd size dep subtree args).2 = t := by rw [h]
  rw [← h2]
  exact appendNode_noDirty s2 ty cmd size dep subtree args hnd

/-- C8: appending a consumer of a dirty operand forces a full evaluation
    before the node is inserted; afterwards no operand of the new node is
    dirty (indeed no node at all is dirty when an evaluation was forced), so
    a dirty node is never consumed as an operand of a newly inserted node
    without an intervening evaluation.  The hypothesis `dirtyQueuedB` is the
    reachable-state invariant that every set dirty flag is recorded in the
    dirty queue (`cuda_var_mark_dirty` is the only setter and maintains it). -/
theorem c8_raw_barrier (s : TraceState) (ty : EnokiType) (cmd : String)
    (a1 a2 a3 : Nat) (hq : dirtyQueuedB s = true) :
    (∀ i t, cuda_trace_append1 s ty cmd a1 = Except.ok (i, t) →
      (getV t a1).dirty = false ∧
      ((getV s a1).dirty = true → noDirtyB t = true)) ∧
    (∀ i t, cuda_trace_append2 s ty cmd a1 a2 = Except.ok (i, t) →
      ((getV t a1).dirty = false ∧ (getV t a2).dirty = false) ∧
      (((getV s a1).dirty || (getV s a2).dirty) = true → noDirtyB t = true)) ∧
    (∀ i t, cuda_trace_append3 s ty cmd a1 a2 a3 = Except.ok (i, t) →
      ((getV t a1).dirty = false ∧ (getV t a2).dirty = false ∧
        (getV t a3).dirty = false) ∧
      (((getV s a1).dirty || (getV s a2).dirty || (getV s a3).dirty) = true →
        noDirtyB t = true)) := by
  have hqq := (dirtyQueuedB_iff s).mp hq
  refine ⟨?_, ?_, ?_⟩
  · intro i t hok
    simp only [cuda_trace_append1] at hok
    split at hok
    · exact absurd hok (by simp)
    next hguard =>
      rw [Nat.not_le] at hguard
      split at hok
      next hdirty =>
        cases he : cuda_eval s with
        | error e => rw [he] at hok; exact absurd hok (by simp [except_bind_err])
        | ok s2 =>
          rw [he, except_bind_ok, except_pure] at hok
          have hnd2 : NoDirty s2 := (eval_ok_clean s s2 hqq he).1
          have hndt : NoDirty t :=
            append_pair_noDirty _ _ _ _ _ _ _ _ _ hnd2 (Except.ok.inj hok)
          exact ⟨hndt a1, fun _ => (noDirtyB_iff t).mpr hndt⟩
      next hdirty =>
        rw [except_pure] at hok
        have hcl : (getV s a1).dirty = false := by
          revert hdirty
          cases (getV s a1).dirty <;> simp
        constructor
        · rw [append_pair_dirty_old _ _ _ _ _ _ _ _ _ a1 (by omega)
            (Except.ok.inj hok)]
          exact hcl
        · intro hcontra
          rw [hcl] at hcontra
          simp at hcontra
  · intro i t hok
    simp only [cuda_trace_append2] at hok
    split at hok
    · exact absurd hok (by simp)
    next hguard =>
      simp only [Bool.or_eq_true, decide_eq_true_eq, not_or, Nat.not_le] at hguard
      split at hok
      next hdirty =>
        cases he : cuda_eval s with
        | error e => rw [he] at hok; exact absurd hok (by simp [except_bind_err])
        | ok s2 =>
          rw [he, except_bind_ok, except_pure] at hok
          have hnd2 : NoDirty s2 := (eval_ok_clean s s2 hqq he).1
          have hndt : NoDirty t :=
            append_pair_noDirty _ _ _ _ _ _ _ _ _ hnd2 (Except.ok.inj hok)
          exact ⟨⟨hndt a1, hndt a2⟩, fun _ => (noDirtyB_iff t).mpr hndt⟩
      next hdirty =>
        rw [except_pure] at hok
        have hcl : (getV s a1).dirty = false ∧ (getV s a2).dirty = false := by
          revert hdirty
          cases (getV s a1).dirty <;> cases (getV s a2).dirty <;> simp
        constructor
        · constructor
          · rw [append_pair_dirty_old _ _ _ _ _ _ _ _ _ a1 (by omega)
              (Except.ok.inj hok)]
            exact hcl.1
          · rw [append_pair_dirty_old _ _ _ _ _ _ _ _ _ a2 (by omega)
              (Except.ok.inj hok)]
            exact hcl.2
        · intro hcontra
          rw [hcl.1, hcl.2] at hcontra
          simp at hcontra
  · intro i t hok
    simp only [cuda_trace_append3] at hok
    split at hok
    · exact absurd hok (by simp)
    next hguard =>
      simp only [Bool.or_eq_true, decide_eq_true_eq, not_or, Nat.not_le] at hguard
      split at hok
      next hdirty =>
        cases he : cuda_eval s with
        | error e => rw [he] at hok; exact absurd hok (by simp [except_bind_err])
        | ok s2 =>
          rw [he, except_bind_ok, except_pure] at hok
          have hnd2 : NoDirty s2 := (eval_ok_clean s s2 hqq he).1
          have hndt : NoDirty t :=
            append_pair_noDirty _ _ _ _ _ _ _ _ _ hnd2 (Except.ok.inj hok)
          exact ⟨⟨hndt a1, hndt a2, hndt a3⟩, fun _ => (noDirtyB_iff t).mpr hndt⟩
      next hdirty =>
        rw [except_pure] at hok
        have hcl : (getV s a1).dirty = false ∧ (getV s a2).dirty = false ∧
            (getV s a3).dirty = false := by
          revert hdirty
          cases (getV s a1).dirty <;> cases (getV s a2).dirty <;>
            cases (getV s a3).dirty <;> simp
        refine ⟨⟨?_, ?_, ?_⟩, ?_⟩
        · rw [append_pair_dirty_old _ _ _ _ _ _ _ _ _ a1 (by omega)
            (Except.ok.inj hok)]
          exact hcl.1
        · rw [append_pair_dirty_old _ _ _ _ _ _ _ _ _ a2 (by omega)
            (Except.ok.inj hok)]
          exact hcl.2.1
        · rw [append_pair_dirty_old _ _ _ _ _ _ _ _ _ a3 (by omega)
            (Except.ok.inj hok)]
          exact hcl.2.2
        · intro hcontra
          rw [hcl.1, hcl.2.1, hcl.2.2] at hcontra
          simp at hcontra

/-- C8 witness: the theorem applied to an append consuming dirty node 11. -/
theorem c8_witness :
    (dirtyQueuedB c8dirty = true ∧ (getV c8dirty 11).dirty = true ∧
     cuda_trace_append1 c8dirty EnokiType.UInt32 "add.u32 $r1, $r2, $r2" 11 =
       Except.ok (12, c8post)) ∧
    ((getV c8post 11).dirty = false ∧ noDirtyB c8post = true) :=
  ⟨⟨by decide, by decide, by decide⟩,
   ⟨((c8_raw_barrier c8dirty EnokiType.UInt32 "add.u32 $r1, $r2, $r2" 11 0 0
        (by decide)).1 12 c8post (by decide)).1,
    ((c8_raw_barrier c8dirty EnokiType.UInt32 "add.u32 $r1, $r2, $r2" 11 0 0
        (by decide)).1 12 c8post (by decide)).2 (by decide)⟩⟩
